import Mathlib

/-!  Verification of the PolarMCP time-series preprocessing engine.

This file shallowly embeds the preprocessing core of the repository
(`src/services/api-client.ts` sample decoding and channel summarizers, and the
sleep / heart-rate / nightly-recharge / activity preprocessing in the tools
modules) into Lean, and proves or refutes the specified properties.

Modelling conventions:
* JavaScript numbers are modelled as `ℚ` (exact rationals); the only
  operations that leave `ℚ` are square roots (normalized power, SDNN, RMSSD),
  which are modelled in `ℝ`.  `x ** 0.25` is modelled as `√√x`; the two agree
  on the nonnegative reals, and the base here is an average of fourth powers,
  hence nonnegative.
* `NaN` is modelled by `Option` (`none` = NaN) at the points where the code
  tests for it; parse helpers that the code only ever reaches with well-formed
  input carry a `getD` default, and every theorem that touches such a helper
  hypothesises well-formed input.
* JavaScript objects used as ordered maps (`Record<string, number>`) are
  modelled as association lists in key-insertion order.
* `Number(...)` is modelled by `jsNum?` covering the decimal-literal fragment
  (sign, digits, fraction, exponent); hexadecimal literals and `Infinity`,
  which the fitness data never contains, fall to `none` (absent).
-/

set_option linter.unusedVariables false
set_option linter.unnecessarySeqFocus false
set_option linter.unreachableTactic false
set_option linter.unusedTactic false

namespace Polar

/-! ## JavaScript string and number primitives -/

/-- Splitting a character list on a separator, one (possibly empty) group per
occurrence, matching `String.prototype.split` with a single-character
separator: `"".split(",") = [""]`, `",".split(",") = ["", ""]`. -/
def splitCharList (sep : Char) : List Char → List (List Char)
  | [] => [[]]
  | c :: rest =>
    if c = sep then [] :: splitCharList sep rest
    else
      match splitCharList sep rest with
      | [] => [[c]]
      | g :: gs => (c :: g) :: gs

/-- JS `s.split(sep)` for a one-character separator. -/
def jsSplit (sep : Char) (s : String) : List String :=
  (splitCharList sep s.data).map (fun cs => ⟨cs⟩)

/-- JS `s.trim()`: strip leading and trailing whitespace. -/
def jsTrim (s : String) : String :=
  ⟨(((s.data.dropWhile Char.isWhitespace).reverse).dropWhile Char.isWhitespace).reverse⟩

/-- Numeric value of a list of decimal digit characters. -/
def natOfDigits (ds : List Char) : ℕ :=
  ds.foldl (fun a c => a * 10 + (c.toNat - 48)) 0

/-- Split at the first exponent marker `e`/`E`, if any. -/
def splitAtExpChar (cs : List Char) : List Char × Option (List Char) :=
  let m := cs.takeWhile (fun c => !(c == 'e' || c == 'E'))
  let r := cs.dropWhile (fun c => !(c == 'e' || c == 'E'))
  match r with
  | [] => (m, none)
  | _ :: rest => (m, some rest)

/-- Unsigned decimal mantissa: `digits`, `digits.digits`, `digits.` or
`.digits`; anything else (including the empty list) is not a number. -/
def parseMantissa (cs : List Char) : Option ℚ :=
  let intPart := cs.takeWhile (fun c => c.isDigit)
  let rest := cs.dropWhile (fun c => c.isDigit)
  match rest with
  | [] => if intPart.isEmpty then none else some (natOfDigits intPart : ℚ)
  | '.' :: fracRest =>
    let fracPart := fracRest.takeWhile (fun c => c.isDigit)
    let rest2 := fracRest.dropWhile (fun c => c.isDigit)
    if rest2.isEmpty then
      if intPart.isEmpty && fracPart.isEmpty then none
      else some ((natOfDigits intPart : ℚ) + (natOfDigits fracPart : ℚ) / 10 ^ fracPart.length)
    else none
  | _ => none

/-- Mantissa with an optional leading sign. -/
def parseSignedMantissa (cs : List Char) : Option ℚ :=
  match cs with
  | '+' :: rest => parseMantissa rest
  | '-' :: rest => (parseMantissa rest).map Neg.neg
  | _ => parseMantissa cs

/-- Exponent: optional sign followed by one or more digits, nothing else. -/
def parseSignedDigits (cs : List Char) : Option ℤ :=
  match cs with
  | '+' :: rest =>
    if rest.isEmpty || rest.any (fun c => !c.isDigit) then none
    else some (natOfDigits rest : ℤ)
  | '-' :: rest =>
    if rest.isEmpty || rest.any (fun c => !c.isDigit) then none
    else some (-(natOfDigits rest : ℤ))
  | _ =>
    if cs.isEmpty || cs.any (fun c => !c.isDigit) then none
    else some (natOfDigits cs : ℤ)

/-- JS `Number(s)` on an already-trimmed string, restricted to finite decimal
literals; `none` models `NaN`.  `Number("") = 0`. -/
def jsNum (s : String) : Option ℚ :=
  match s.data with
  | [] => some 0
  | cs =>
    let p := splitAtExpChar cs
    match parseSignedMantissa p.1, p.2 with
    | some m, none => some m
    | some m, some ecs =>
      match parseSignedDigits ecs with
      | some e => some (m * (10 : ℚ) ^ e)
      | none => none
    | none, _ => none

/-- JS `parseInt(s, 10)`: skip leading whitespace, optional sign, then the
longest digit prefix; `none` models `NaN` (no digits). -/
def jsParseInt (s : String) : Option ℤ :=
  match s.data.dropWhile (fun c => c.isWhitespace) with
  | '+' :: rest =>
    let ds := rest.takeWhile (fun c => c.isDigit)
    if ds.isEmpty then none else some (natOfDigits ds : ℤ)
  | '-' :: rest =>
    let ds := rest.takeWhile (fun c => c.isDigit)
    if ds.isEmpty then none else some (-(natOfDigits ds : ℤ))
  | cs =>
    let ds := cs.takeWhile (fun c => c.isDigit)
    if ds.isEmpty then none else some (natOfDigits ds : ℤ)

/-- The repository's `round(value, decimals = 2)` helper
(`Math.round(value * 100) / 100`); Lean's `round` is `⌊x + 1/2⌋`, exactly
`Math.round`'s round-half-up (also for negatives). -/
def round2 (q : ℚ) : ℚ := (round (q * 100) : ℤ) / 100

/-- Real-valued variant of `round2`, for the square-root-valued statistics. -/
noncomputable def round2R (x : ℝ) : ℝ := ((round (x * 100) : ℤ) : ℝ) / 100

/-- JS `Math.min(...l)`; every use in the code guards `l ≠ []`, so the junk
value for `[]` (where JS returns `Infinity`) is never observed. -/
def jsMin (l : List ℚ) : ℚ :=
  match l with
  | [] => 0
  | x :: xs => xs.foldl min x

/-- JS `Math.max(...l)`; every use guards `l ≠ []`. -/
def jsMax (l : List ℚ) : ℚ :=
  match l with
  | [] => 0
  | x :: xs => xs.foldl max x

/-! ## Sample decoder (`api-client.ts`: `parseSampleData`, `filterNulls`) -/

/-- One token of `parseSampleData`: trim, map the empty string and the
`"NULL"`/`"null"` sentinels to `none`, otherwise `Number(trimmed)` with `NaN`
mapped to `none` (`isNaN(num) ? null : num`). -/
def parseToken (v : String) : Option ℚ :=
  let trimmed := jsTrim v
  if trimmed = "" ∨ trimmed = "NULL" ∨ trimmed = "null" then none
  else jsNum trimmed

/-- `parseSampleData`: split the raw delimited string on `","` and decode each
token.  Total by construction — malformed tokens become `none`, never an
exception. -/
def parseSampleData (data : String) : List (Option ℚ) :=
  (jsSplit ',' data).map parseToken

/-- `filterNulls`: drop the absent entries. -/
def filterNulls (values : List (Option ℚ)) : List ℚ :=
  values.filterMap id

/-! ## Channel summarizers (`api-client.ts`) -/

structure SpeedSplit where
  km : ℕ
  pace_min_per_km : ℚ
  avg_speed_kmh : ℚ
deriving DecidableEq, Repr

structure PaceResult where
  splits : List SpeedSplit
deriving DecidableEq, Repr

/-- One iteration of the `processSpeedSplits` loop over the distance series;
the state is `(currentKm, splitStartIdx, splits)`.  `speedKmh.slice(a, b)` is
`(speed.take b).drop a`. -/
def splitStep (dist speed : List ℚ) (st : ℕ × ℕ × List SpeedSplit) (i : ℕ) :
    ℕ × ℕ × List SpeedSplit :=
  let currentKm := st.1
  let splitStartIdx := st.2.1
  let splits := st.2.2
  let distanceKm := dist.getD i 0 / 1000
  if distanceKm ≥ (currentKm : ℚ) ∨ i = dist.length - 1 then
    let speedSlice := (speed.take (min (i + 1) speed.length)).drop splitStartIdx
    let splits' :=
      if speedSlice.length > 0 then
        let avgSpeed := speedSlice.sum / speedSlice.length
        let pace := if avgSpeed > 0 then 60 / avgSpeed else 0
        splits ++ [⟨currentKm, round2 pace, round2 avgSpeed⟩]
      else splits
    (currentKm + 1, i + 1, splits')
  else st

/-- The overall fallback split of `processSpeedSplits` (`km: 0`). -/
def overallSplit (speedKmh : List ℚ) : PaceResult :=
  let avgSpeed := speedKmh.sum / speedKmh.length
  let pace := if avgSpeed > 0 then 60 / avgSpeed else 0
  ⟨[⟨0, round2 pace, round2 avgSpeed⟩]⟩

/-- `processSpeedSplits(speedValues, speedRecordingRate, distanceValues)`:
per-kilometre splits when a non-empty distance series is present (falling back
to the overall split when the km loop produced no splits), otherwise one
overall split. -/
def processSpeedSplits (speedValues : List ℚ) (speedRecordingRate : ℚ)
    (distanceValues : Option (List ℚ)) : Option PaceResult :=
  if speedValues.length = 0 then none
  else
    match distanceValues with
    | some dist =>
      if dist.length > 0 then
        let splits := ((List.range dist.length).foldl (splitStep dist speedValues)
          (1, 0, [])).2.2
        if splits.length > 0 then some ⟨splits⟩ else some (overallSplit speedValues)
      else some (overallSplit speedValues)
    | none => some (overallSplit speedValues)

structure AltitudeStats where
  total_ascent : ℚ
  total_descent : ℚ
  min_elevation : ℚ
  max_elevation : ℚ
deriving DecidableEq, Repr

/-- `processAltitude`: sum positive deltas into ascent, absolute negative
deltas into descent. -/
def processAltitude (values : List ℚ) : Option AltitudeStats :=
  if values.length = 0 then none
  else
    let deltas := (values.zip values.tail).map (fun p => p.2 - p.1)
    let totalAscent := (deltas.filter (fun d => decide (d > 0))).sum
    let totalDescent := (deltas.filter (fun d => decide (¬ d > 0))).map (fun d => |d|) |>.sum
    some ⟨round2 totalAscent, round2 totalDescent, jsMin values, jsMax values⟩

structure PowerStats where
  avg_power : ℝ
  normalized_power : ℝ
  max_power : ℝ
  variability_index : ℝ

/-- One iteration of the rolling-window loop in `processPower`; the state is
`(windowSum, rollingAvgs)`. -/
def rollingStep (values : List ℚ) (w : ℕ) (st : ℚ × List ℚ) (i : ℕ) : ℚ × List ℚ :=
  let windowSum := st.1 + values.getD i 0
  let windowSum := if i ≥ w then windowSum - values.getD (i - w) 0 else windowSum
  let acc := if i + 1 ≥ w then st.2 ++ [windowSum / w] else st.2
  (windowSum, acc)

/-- The list of 30-second rolling means (`rollingAvgs` in `processPower`). -/
def rollingAvgsOf (values : List ℚ) (w : ℕ) : List ℚ :=
  ((List.range values.length).foldl (rollingStep values w) (0, [])).2

/-- `processPower(values, recordingRate)`: average, max, normalized power
(30-second rolling means, fourth powers, mean, fourth root — modelled as
`√√·`, equal to `** 0.25` on the nonnegative base), and variability index
(`avgPower > 0 ? normalized / avg : 0`). -/
noncomputable def processPower (values : List ℚ) (recordingRate : ℚ) : Option PowerStats :=
  if values.length = 0 then none
  else
    let avgPower := values.sum / values.length
    let maxPower := jsMax values
    let windowSize : ℤ := ⌈(30 : ℚ) / recordingRate⌉
    let normalizedPower : ℝ :=
      if (values.length : ℤ) < windowSize then (avgPower : ℝ)
      else
        let rollingAvgs := rollingAvgsOf values windowSize.toNat
        let fourthPowerAvg := (rollingAvgs.map (fun v => v ^ 4)).sum / (rollingAvgs.length : ℚ)
        Real.sqrt (Real.sqrt (fourthPowerAvg : ℝ))
    let variabilityIndex : ℝ := if avgPower > 0 then normalizedPower / (avgPower : ℝ) else 0
    some ⟨round2R (avgPower : ℝ), round2R normalizedPower, round2R (maxPower : ℝ),
      round2R variabilityIndex⟩

structure HrvStats where
  rmssd : ℝ
  sdnn : ℝ
  mean_rr : ℝ
  pnn50 : ℝ

/-- `processRrIntervals(values)`: `null` below 2 points; otherwise mean,
population standard deviation (SDNN), root mean square of successive
differences (RMSSD) and pNN50 (percentage of successive differences with
absolute value strictly above 50). -/
noncomputable def processRrIntervals (values : List ℚ) : Option HrvStats :=
  if values.length < 2 then none
  else
    let meanRR := values.sum / values.length
    let variance := (values.map (fun v => (v - meanRR) ^ 2)).sum / (values.length : ℚ)
    let sdnn := Real.sqrt (variance : ℝ)
    let diffs := (values.zip values.tail).map (fun p => p.2 - p.1)
    let sumSquaredDiffs := (diffs.map (fun d => d ^ 2)).sum
    let nn50Count := (diffs.filter (fun d => decide (|d| > 50))).length
    let rmssd := Real.sqrt ((sumSquaredDiffs / (values.length - 1) : ℚ) : ℝ)
    let pnn50 := ((nn50Count : ℚ) / (values.length - 1)) * 100
    some ⟨round2R rmssd, round2R sdnn, round2R (meanRR : ℝ), round2R (pnn50 : ℝ)⟩

/-! ## Exercise-sample orchestrator (`preprocessSamples`) -/

structure ExerciseSample where
  recording_rate : ℚ
  sample_type : ℤ
  data : String
deriving DecidableEq, Repr

structure AvgMax where
  avg : ℚ
  max : ℚ
deriving DecidableEq, Repr

structure AvgOnly where
  avg : ℚ
deriving DecidableEq, Repr

structure AvgMinMax where
  avg : ℚ
  min : ℚ
  max : ℚ
deriving DecidableEq, Repr

structure PreprocessedSamples where
  pace : Option PaceResult
  cadence : Option AvgMax
  altitude : Option AltitudeStats
  power : Option PowerStats
  power_pedaling_index : Option AvgOnly
  power_lr_balance : Option AvgOnly
  air_pressure : Option AvgMinMax
  running_cadence : Option AvgMax
  temperature : Option AvgMinMax
  rr_intervals : Option HrvStats

/-- The `samplesByType` map: `Map.set` overwrites, so lookup returns the last
sample of the given type, with its parsed values and recording rate. -/
def samplesByTypeGet (rawSamples : List ExerciseSample) (t : ℤ) :
    Option (List (Option ℚ) × ℚ) :=
  (rawSamples.reverse.find? (fun s => s.sample_type == t)).map
    (fun s => (parseSampleData s.data, s.recording_rate))

/-- The `avg`/`max` summary used for cadence and running cadence. -/
def simpleAvgMax (values : List ℚ) : Option AvgMax :=
  if values.length > 0 then
    some ⟨round2 (values.sum / values.length), jsMax values⟩
  else none

/-- The `avg`-only summary used for pedaling index and L/R balance. -/
def simpleAvg (values : List ℚ) : Option AvgOnly :=
  if values.length > 0 then
    some ⟨round2 (values.sum / values.length)⟩
  else none

/-- `preprocessSamples(rawSamples)`: decode every channel by type tag and run
the per-type summarizers; a field is set only when its processor produced a
summary. -/
noncomputable def preprocessSamples (rawSamples : List ExerciseSample) : PreprocessedSamples :=
  let get := samplesByTypeGet rawSamples
  let pace :=
    match get 1 with
    | none => none
    | some sd =>
      let speedValues := filterNulls sd.1
      let distValues := (get 10).map (fun dd => filterNulls dd.1)
      processSpeedSplits speedValues sd.2 distValues
  let cadence := (get 2).bind (fun sd => simpleAvgMax (filterNulls sd.1))
  let altitude := (get 3).bind (fun sd => processAltitude (filterNulls sd.1))
  let power := (get 4).bind (fun sd => processPower (filterNulls sd.1) sd.2)
  let pedal := (get 5).bind (fun sd => simpleAvg (filterNulls sd.1))
  let balance := (get 6).bind (fun sd => simpleAvg (filterNulls sd.1))
  let pressure := (get 7).bind (fun sd =>
    let values := filterNulls sd.1
    if values.length > 0 then
      some (⟨round2 (values.sum / values.length), jsMin values, jsMax values⟩ : AvgMinMax)
    else none)
  let runCadence := (get 8).bind (fun sd => simpleAvgMax (filterNulls sd.1))
  let temperature := (get 9).bind (fun sd =>
    let values := (filterNulls sd.1).map (fun v => v / 10)
    if values.length > 0 then
      some (⟨round2 (values.sum / values.length), round2 (jsMin values),
        round2 (jsMax values)⟩ : AvgMinMax)
    else none)
  let rr := (get 11).bind (fun sd => processRrIntervals (filterNulls sd.1))
  ⟨pace, cadence, altitude, power, pedal, balance, pressure, runCadence, temperature, rr⟩

/-! ## Midnight-aware timeline and trend engine (sleep/recharge tools) -/

/-- `parseSleepTime(timeStr, sleepStartHour)`: minutes since midnight, with
hours strictly below 18 pushed to the next day when the session started at or
after 18:00.  `timeStr.split(":")` destructured as `[h, m]`; theorems using
this helper hypothesise a well-formed `"HH:MM"` string, on which the `getD`
defaults are never taken. -/
def parseSleepTime (timeStr : String) (sleepStartHour : ℤ) : ℚ :=
  let parts := jsSplit ':' timeStr
  let h := (jsNum (parts.getD 0 "")).getD 0
  let m := (jsNum (parts.getD 1 "")).getD 0
  let minutes := h * 60 + m
  if sleepStartHour ≥ 18 ∧ h < 18 then minutes + 1440 else minutes

/-- The y-values of a trend series (insertion order of the sample map). -/
def trendValues (samples : List (String × ℚ)) : List ℚ :=
  samples.map (fun p => p.2)

/-- The midnight-normalized minute offsets of a trend series. -/
def trendTimePoints (samples : List (String × ℚ)) (sleepStartHour : ℤ) : List ℚ :=
  samples.map (fun p => parseSleepTime p.1 sleepStartHour)

/-- Elapsed hours since the first sample (`(t - firstTime) / 60`). -/
def trendXHours (samples : List (String × ℚ)) (sleepStartHour : ℤ) : List ℚ :=
  let timePoints := trendTimePoints samples sleepStartHour
  let firstTime := timePoints.headD 0
  timePoints.map (fun t => (t - firstTime) / 60)

/-- `computeTrendSlope(samples, sleepStartHour)`: least-squares slope in
units/hour, `Math.round( · * 100) / 100`, and `0` when the denominator
`n·Σx² - (Σx)²` vanishes. -/
def computeTrendSlope (samples : List (String × ℚ)) (sleepStartHour : ℤ) : ℚ :=
  let values := trendValues samples
  let xHours := trendXHours samples sleepStartHour
  let n : ℚ := values.length
  let sumX := xHours.sum
  let sumY := values.sum
  let sumXY := ((xHours.zip values).map (fun p => p.1 * p.2)).sum
  let sumX2 := (xHours.map (fun x => x * x)).sum
  let denom := n * sumX2 - sumX * sumX
  if denom = 0 then 0 else round2 ((n * sumXY - sumX * sumY) / denom)

structure SleepHeartRateStats where
  min : ℚ
  avg : ℚ
  nadir : ℚ
  trend_slope : ℚ
deriving DecidableEq, Repr

/-- `computeSleepHrStats(samples, sleepStartHour)`: min, rounded mean, nadir
(minimum 3-point rolling average, plain minimum below 3 points) and trend
slope. -/
def computeSleepHrStats (samples : List (String × ℚ)) (sleepStartHour : ℤ) :
    SleepHeartRateStats :=
  let values := trendValues samples
  let min := jsMin values
  let avg : ℚ := (round (values.sum / values.length) : ℤ)
  let nadir : ℚ :=
    if values.length < 3 then min
    else
      let rollingAvgs := (List.range (values.length - 2)).map
        (fun i => (values.getD i 0 + values.getD (i + 1) 0 + values.getD (i + 2) 0) / 3)
      (round (jsMin rollingAvgs) : ℤ)
  ⟨min, avg, nadir, computeTrendSlope samples sleepStartHour⟩

/-- The subset of the `Sleep` record consumed by the preprocessing core;
sample maps are association lists in key order. -/
structure Sleep where
  date : String
  sleep_start_time : String
  sleep_end_time : String
  continuity : Option ℚ
  continuity_class : Option ℚ
  light_sleep : Option ℚ
  deep_sleep : Option ℚ
  rem_sleep : Option ℚ
  sleep_score : Option ℚ
  total_interruption_duration : Option ℚ
  sleep_charge : Option ℚ
  sleep_rating : Option ℚ
  short_interruption_duration : Option ℚ
  long_interruption_duration : Option ℚ
  sleep_cycles : Option ℚ
  group_duration_score : Option ℚ
  group_solidity_score : Option ℚ
  group_regeneration_score : Option ℚ
  hypnogram : Option (List (String × ℚ))
  heart_rate_samples : Option (List (String × ℚ))
deriving DecidableEq, Repr

/-- A hypnogram entry after time normalization (`{time, stage, minutes}`). -/
structure HypEntry where
  time : String
  stage : ℚ
  minutes : ℚ
deriving DecidableEq, Repr

/-- A stage segment (`{stage, start, duration}`). -/
structure StageSegment where
  stage : ℚ
  start : ℚ
  duration : ℚ
deriving DecidableEq, Repr

/-- Stable insertion into a list sorted by `minutes`, the building block of
the JS stable `sort((a, b) => a.minutes - b.minutes)`. -/
def insertByMinutes (e : HypEntry) : List HypEntry → List HypEntry
  | [] => [e]
  | x :: xs => if x.minutes ≤ e.minutes then x :: insertByMinutes e xs else e :: x :: xs

/-- Stable sort by `minutes` (insertion sort), modelling the JS comparator
sort of the hypnogram entries. -/
def sortByMinutes : List HypEntry → List HypEntry
  | [] => []
  | x :: xs => insertByMinutes x (sortByMinutes xs)

/-- The sorted hypnogram entries of `computeSleepArchitecture`. -/
def hypEntries (hypnogram : List (String × ℚ)) (sleepStartHour : ℤ) : List HypEntry :=
  sortByMinutes (hypnogram.map
    (fun p => ⟨p.1, p.2, parseSleepTime p.1 sleepStartHour⟩))

/-- The segment-building loop of `computeSleepArchitecture`: every entry —
including the last — yields a segment; the last one has
`end = start`, hence duration 0. -/
def mkSegments : List HypEntry → List StageSegment
  | [] => []
  | [e] => [⟨e.stage, e.minutes, 0⟩]
  | e :: f :: rest => ⟨e.stage, e.minutes, f.minutes - e.minutes⟩ :: mkSegments (f :: rest)

/-- The REM-cycle loop: count segments of stage 1 whose predecessor (if any)
has a different stage. -/
def countRemCycles : Option ℚ → List StageSegment → ℕ
  | _, [] => 0
  | prev, s :: rest =>
    (if s.stage = 1 ∧ prev ≠ some 1 then 1 else 0) + countRemCycles (some s.stage) rest

structure SleepArchitecture where
  time_to_first_deep_sleep_min : ℚ
  number_of_rem_cycles : ℕ
  avg_cycle_length_min : ℚ
  deep_sleep_in_first_half_pct : ℚ
  rem_sleep_in_second_half_pct : ℚ
deriving DecidableEq, Repr

/-- `computeSleepArchitecture(hypnogram, sleep, sleepStartHour)`; the caller
guarantees at least two hypnogram entries. -/
def computeSleepArchitecture (hypnogram : List (String × ℚ)) (sleep : Sleep)
    (sleepStartHour : ℤ) : SleepArchitecture :=
  let entries := hypEntries hypnogram sleepStartHour
  let segments := mkSegments entries
  let sleepStart := ((entries.head?).map (fun e => e.minutes)).getD 0
  let sleepEnd := ((entries.getLast?).map (fun e => e.minutes)).getD 0
  let midpoint := sleepStart + (sleepEnd - sleepStart) / 2
  let firstDeep := segments.find? (fun s => s.stage == 4)
  let time_to_first_deep_sleep_min : ℚ :=
    match firstDeep with
    | some s => (round (s.start - sleepStart) : ℤ)
    | none => 0
  let number_of_rem_cycles := countRemCycles none segments
  let cycleCount : ℚ :=
    match sleep.sleep_cycles with
    | some c => if c = 0 then number_of_rem_cycles else c
    | none => number_of_rem_cycles
  let totalSleepSeconds := sleep.light_sleep.getD 0 + sleep.deep_sleep.getD 0 +
    sleep.rem_sleep.getD 0
  let avg_cycle_length_min : ℚ :=
    if cycleCount > 0 then (round (totalSleepSeconds / 60 / cycleCount) : ℤ) else 0
  let firstHalfDeep := (segments.filter (fun s => s.stage == 4)).foldl
    (fun acc s => if s.start < midpoint then acc + (min (s.start + s.duration) midpoint - s.start) else acc) 0
  let totalDeep := ((segments.filter (fun s => s.stage == 4)).map (fun s => s.duration)).sum
  let deep_sleep_in_first_half_pct : ℚ :=
    if totalDeep > 0 then (round (firstHalfDeep / totalDeep * 100) : ℤ) else 0
  let secondHalfRem := (segments.filter (fun s => s.stage == 1)).foldl
    (fun acc s => if s.start + s.duration > midpoint then acc + (s.start + s.duration - max s.start midpoint) else acc) 0
  let totalRem := ((segments.filter (fun s => s.stage == 1)).map (fun s => s.duration)).sum
  let rem_sleep_in_second_half_pct : ℚ :=
    if totalRem > 0 then (round (secondHalfRem / totalRem * 100) : ℤ) else 0
  ⟨time_to_first_deep_sleep_min, number_of_rem_cycles, avg_cycle_length_min,
    deep_sleep_in_first_half_pct, rem_sleep_in_second_half_pct⟩

/-- The session-start-hour derivation of `preprocessSleep`:
`parseInt(sleep_start_time.split("T")[1]?.split(":")[0] || "22", 10)`.  A
missing or empty time-of-day component falls back to `"22"`; `parseInt`
returning `NaN` (never hit on well-formed input) is modelled as 0. -/
def sleepStartHourOf (s : String) : ℤ :=
  match (jsSplit 'T' s).drop 1 with
  | [] => 22
  | t :: _ =>
    let hstr := (jsSplit ':' t).getD 0 ""
    if hstr = "" then 22 else (jsParseInt hstr).getD 0

structure ProcessedSleep where
  date : String
  sleep_start_time : String
  sleep_end_time : String
  continuity : Option ℚ
  continuity_class : Option ℚ
  light_sleep : Option ℚ
  deep_sleep : Option ℚ
  rem_sleep : Option ℚ
  sleep_score : Option ℚ
  total_interruption_duration : Option ℚ
  sleep_charge : Option ℚ
  sleep_rating : Option ℚ
  short_interruption_duration : Option ℚ
  long_interruption_duration : Option ℚ
  sleep_cycles : Option ℚ
  group_duration_score : Option ℚ
  group_solidity_score : Option ℚ
  group_regeneration_score : Option ℚ
  heart_rate : Option SleepHeartRateStats
  sleep_architecture : Option SleepArchitecture
deriving DecidableEq, Repr

/-- `preprocessSleep(sleep)`: copy the scalar fields, then derive heart-rate
stats (for a non-empty sample map) and sleep architecture (for a hypnogram
with more than one entry), both under the derived session start hour. -/
def preprocessSleep (sleep : Sleep) : ProcessedSleep :=
  let sleepStartHour := sleepStartHourOf sleep.sleep_start_time
  let heart_rate :=
    match sleep.heart_rate_samples with
    | some samples => if samples.length > 0 then some (computeSleepHrStats samples sleepStartHour) else none
    | none => none
  let sleep_architecture :=
    match sleep.hypnogram with
    | some hyp => if hyp.length > 1 then some (computeSleepArchitecture hyp sleep sleepStartHour) else none
    | none => none
  ⟨sleep.date, sleep.sleep_start_time, sleep.sleep_end_time, sleep.continuity,
    sleep.continuity_class, sleep.light_sleep, sleep.deep_sleep, sleep.rem_sleep,
    sleep.sleep_score, sleep.total_interruption_duration, sleep.sleep_charge,
    sleep.sleep_rating, sleep.short_interruption_duration,
    sleep.long_interruption_duration, sleep.sleep_cycles, sleep.group_duration_score,
    sleep.group_solidity_score, sleep.group_regeneration_score, heart_rate,
    sleep_architecture⟩

/-! ## Half-hour heart-rate bucketing -/

structure HeartRateSample where
  sample_time : String
  heart_rate : ℚ
deriving DecidableEq, Repr

structure HalfHourBucket where
  time : String
  avg : ℤ
  min : ℚ
  max : ℚ
  samples : ℕ
deriving DecidableEq, Repr

/-- The bucket index of a sample time: `hour * 2 + (minute >= 30 ? 1 : 0)`;
theorems hypothesise well-formed `"HH:MM"` times (the `getD 0` default models
the out-of-range `NaN` index only nominally). -/
def bucketIndexOf (t : String) : ℤ :=
  let parts := jsSplit ':' t
  let hours := (jsParseInt (parts.getD 0 "")).getD 0
  let minutes := (jsParseInt (parts.getD 1 "")).getD 0
  hours * 2 + (if minutes ≥ 30 then 1 else 0)

/-- The accumulator arrays of `bucketHeartRateSamples`; `mins`/`maxs` use
`none` for the untouched `Infinity`/`-Infinity` sentinels. -/
structure BucketAcc where
  sums : ℤ → ℚ
  counts : ℤ → ℕ
  mins : ℤ → Option ℚ
  maxs : ℤ → Option ℚ

/-- Minimum update: `if (hr < mins[i]) mins[i] = hr` with `Infinity` start. -/
def optMinUpd (o : Option ℚ) (v : ℚ) : Option ℚ :=
  match o with
  | none => some v
  | some c => if v < c then some v else some c

/-- Maximum update: `if (hr > maxs[i]) maxs[i] = hr` with `-Infinity` start. -/
def optMaxUpd (o : Option ℚ) (v : ℚ) : Option ℚ :=
  match o with
  | none => some v
  | some c => if v > c then some v else some c

/-- One sample of the accumulation loop of `bucketHeartRateSamples`. -/
def bucketStep (acc : BucketAcc) (s : HeartRateSample) : BucketAcc :=
  let i := bucketIndexOf s.sample_time
  ⟨fun j => if j = i then acc.sums j + s.heart_rate else acc.sums j,
   fun j => if j = i then acc.counts j + 1 else acc.counts j,
   fun j => if j = i then optMinUpd (acc.mins j) s.heart_rate else acc.mins j,
   fun j => if j = i then optMaxUpd (acc.maxs j) s.heart_rate else acc.maxs j⟩

/-- The initial accumulator (zero-filled sums/counts, sentinel min/max). -/
def bucketAccInit : BucketAcc := ⟨fun _ => 0, fun _ => 0, fun _ => none, fun _ => none⟩

/-- The label of bucket `i` is the end of its 30-minute window,
`(i + 1) * 30` minutes, zero-padded `"HH:MM"`. -/
def windowLabel (i : ℕ) : String :=
  let labelMinutesTotal := (i + 1) * 30
  let labelHours := labelMinutesTotal / 60
  let labelMins := labelMinutesTotal % 60
  (if labelHours < 10 then "0" ++ toString labelHours else toString labelHours) ++ ":" ++
    (if labelMins < 10 then "0" ++ toString labelMins else toString labelMins)

/-- `bucketHeartRateSamples(samples)`: accumulate into 48 half-hour buckets
and emit the non-empty ones in index order. -/
def bucketHeartRateSamples (samples : List HeartRateSample) : List HalfHourBucket :=
  let acc := samples.foldl bucketStep bucketAccInit
  (List.range 48).filterMap (fun (i : ℕ) =>
    if acc.counts (i : ℤ) = 0 then none
    else some ⟨windowLabel i, round (acc.sums (i : ℤ) / (acc.counts (i : ℤ) : ℚ)),
      (acc.mins (i : ℤ)).getD 0, (acc.maxs (i : ℤ)).getD 0, acc.counts (i : ℤ)⟩)

/-! ## Nightly recharge -/

structure NightlyRecharge where
  date : String
  nightly_recharge_status : Option ℚ
  ans_charge : Option ℚ
  ans_charge_status : Option ℚ
  heart_rate_avg : Option ℚ
  beat_to_beat_avg : Option ℚ
  heart_rate_variability_avg : Option ℚ
  breathing_rate_avg : Option ℚ
  hrv_samples : Option (List (String × ℚ))
  breathing_samples : Option (List (String × ℚ))
deriving DecidableEq, Repr

structure SampleStats where
  avg : ℚ
  min : ℚ
  max : ℚ
  trend_slope : ℚ
deriving DecidableEq, Repr

structure ProcessedNightlyRecharge where
  date : String
  nightly_recharge_status : Option ℚ
  ans_charge : Option ℚ
  ans_charge_status : Option ℚ
  heart_rate_avg : Option ℚ
  beat_to_beat_avg : Option ℚ
  hrv : Option SampleStats
  breathing_rate : Option SampleStats
deriving DecidableEq, Repr

/-- `computeSampleStats(samples, sleepStartHour)`: min, max and trend slope of
a non-empty sample map. -/
def computeSampleStats (samples : List (String × ℚ)) (sleepStartHour : ℤ) : ℚ × ℚ × ℚ :=
  let values := trendValues samples
  (jsMin values, jsMax values, computeTrendSlope samples sleepStartHour)

/-- The first-sample-key start-hour derivation of `preprocessNightlyRecharge`:
the first HRV key if an HRV sample map is present (even an empty one),
otherwise the first breathing key, else hour 22. -/
def rechargeStartHour (recharge : NightlyRecharge) : ℤ :=
  let firstSampleKey :=
    match recharge.hrv_samples with
    | some m => (m.head?).map (fun p => p.1)
    | none =>
      match recharge.breathing_samples with
      | some m => (m.head?).map (fun p => p.1)
      | none => none
  match firstSampleKey with
  | some k => (jsParseInt ((jsSplit ':' k).getD 0 "")).getD 0
  | none => 22

/-- `preprocessNightlyRecharge(recharge)`: copy scalars; emit `hrv` /
`breathing_rate` whenever the device average is present — with real extremes
and trend when samples exist, and `min: 0, max: 0, trend_slope: 0` otherwise. -/
def preprocessNightlyRecharge (recharge : NightlyRecharge) : ProcessedNightlyRecharge :=
  let sleepStartHour := rechargeStartHour recharge
  let hrv :=
    match recharge.heart_rate_variability_avg with
    | none => none
    | some a =>
      match recharge.hrv_samples with
      | some samples =>
        if samples.length > 0 then
          let stats := computeSampleStats samples sleepStartHour
          some (⟨a, stats.1, stats.2.1, stats.2.2⟩ : SampleStats)
        else some (⟨a, 0, 0, 0⟩ : SampleStats)
      | none => some (⟨a, 0, 0, 0⟩ : SampleStats)
  let breathing :=
    match recharge.breathing_rate_avg with
    | none => none
    | some a =>
      match recharge.breathing_samples with
      | some samples =>
        if samples.length > 0 then
          let stats := computeSampleStats samples sleepStartHour
          some (⟨a, stats.1, stats.2.1, stats.2.2⟩ : SampleStats)
        else some (⟨a, 0, 0, 0⟩ : SampleStats)
      | none => some (⟨a, 0, 0, 0⟩ : SampleStats)
  ⟨recharge.date, recharge.nightly_recharge_status, recharge.ans_charge,
    recharge.ans_charge_status, recharge.heart_rate_avg, recharge.beat_to_beat_avg,
    hrv, breathing⟩

/-! ## Activity: hourly steps and zone durations -/

structure StepSample where
  steps : ℚ
  timestamp : String
deriving DecidableEq, Repr

/-- An activity-zone event; the ISO timestamp string is modelled by its
epoch value in milliseconds (`new Date(ts).getTime()`). -/
structure ActivityZoneSample where
  timestamp : ℚ
  zone : String
deriving DecidableEq, Repr

structure ZoneSummary where
  sedentary_minutes : ℚ
  light_minutes : ℚ
  moderate_minutes : ℚ
  vigorous_minutes : ℚ
deriving DecidableEq, Repr

/-- One adjacent pair of the `computeZoneDurations` loop: attribute the delta
to the zone of the earlier event, skipping unrecognized tags and non-positive
deltas. -/
def zoneStep (acc : ZoneSummary) (p : ActivityZoneSample × ActivityZoneSample) :
    ZoneSummary :=
  let minutes := (p.2.timestamp - p.1.timestamp) / 60000
  if p.1.zone = "SEDENTARY" then
    if minutes > 0 then { acc with sedentary_minutes := acc.sedentary_minutes + minutes } else acc
  else if p.1.zone = "LIGHT" then
    if minutes > 0 then { acc with light_minutes := acc.light_minutes + minutes } else acc
  else if p.1.zone = "MODERATE" then
    if minutes > 0 then { acc with moderate_minutes := acc.moderate_minutes + minutes } else acc
  else if p.1.zone = "VIGOROUS" then
    if minutes > 0 then { acc with vigorous_minutes := acc.vigorous_minutes + minutes } else acc
  else acc

/-- `computeZoneDurations(samples)`: accumulate over adjacent pairs (the final
event starts no interval), then round each category once. -/
def computeZoneDurations (samples : List ActivityZoneSample) : ZoneSummary :=
  let s := (samples.zip samples.tail).foldl zoneStep ⟨0, 0, 0, 0⟩
  ⟨(round s.sedentary_minutes : ℤ), (round s.light_minutes : ℤ),
    (round s.moderate_minutes : ℤ), (round s.vigorous_minutes : ℤ)⟩

/-- Insertion into the hourly-step bucket list, kept in ascending hour order
(JS objects enumerate integer-like keys in ascending numeric order). -/
def insertHourStep (h : ℤ) (st : ℚ) : List (ℤ × ℚ) → List (ℤ × ℚ)
  | [] => [(h, st)]
  | b :: bs =>
    if b.1 = h then (b.1, b.2 + st) :: bs
    else if b.1 < h then b :: insertHourStep h st bs
    else (h, st) :: b :: bs

/-- `aggregateHourlySteps(samples)`: group by hour of day, drop zero-step
hours, ascending by hour. -/
def aggregateHourlySteps (samples : List StepSample) : List (ℤ × ℚ) :=
  let buckets := samples.foldl
    (fun acc s =>
      let hour := (jsParseInt ((jsSplit ':' ((jsSplit 'T' s.timestamp).getD 1 "")).getD 0 "")).getD 0
      insertHourStep hour s.steps acc) []
  buckets.filter (fun b => decide (b.2 > 0))

/-- The subset of `DailyActivity` consumed by `preprocessActivity`. -/
structure DailyActivity where
  start_time : Option String
  active_duration : Option String
  inactive_duration : Option String
  calories : ℚ
  active_calories : Option ℚ
  steps : Option ℚ
  distance_from_steps : Option ℚ
deriving DecidableEq, Repr

structure ActivitySamples where
  steps_samples : Option (List StepSample)
  activity_zones_samples : Option (List ActivityZoneSample)
deriving DecidableEq, Repr

structure ProcessedActivity where
  date : String
  active_duration : String
  inactive_duration : String
  calories : ℚ
  active_calories : ℚ
  steps : ℚ
  distance_from_steps : ℚ
  hourly_steps : List (ℤ × ℚ)
  zone_summary : ZoneSummary
deriving DecidableEq, Repr

/-- `preprocessActivity(activity, samples)`: date from the start time (or
`"Unknown"`), pass-through scalars with falsy-fallbacks, hourly step buckets
(empty without step samples) and the zone summary (zero-filled without zone
samples). -/
def preprocessActivity (activity : DailyActivity) (samples : Option ActivitySamples) :
    ProcessedActivity :=
  let date :=
    match activity.start_time with
    | some s =>
      let d := (jsSplit 'T' s).getD 0 ""
      if d = "" then "Unknown" else d
    | none => "Unknown"
  let hourlySteps :=
    match samples with
    | some sm =>
      match sm.steps_samples with
      | some stepSamples => aggregateHourlySteps stepSamples
      | none => []
    | none => []
  let zoneSummary :=
    match samples with
    | some sm =>
      match sm.activity_zones_samples with
      | some zoneSamples => computeZoneDurations zoneSamples
      | none => ⟨0, 0, 0, 0⟩
    | none => ⟨0, 0, 0, 0⟩
  ⟨date,
    (activity.active_duration).getD "PT0S",
    (activity.inactive_duration).getD "PT0S",
    activity.calories,
    (activity.active_calories).getD 0,
    (activity.steps).getD 0,
    (activity.distance_from_steps).getD 0,
    hourlySteps, zoneSummary⟩

/-! ## General helper lemmas -/

theorem round2_zero : round2 0 = 0 := by
  simp [round2]

theorem sum_zip_mul_sub (a b : ℚ) :
    ∀ (xs ys : List ℚ), xs.length = ys.length →
      ((xs.zip ys).map (fun p => (p.1 - a) * (p.2 - b))).sum
        = ((xs.zip ys).map (fun p => p.1 * p.2)).sum - a * ys.sum - b * xs.sum
          + (xs.length : ℚ) * (a * b)
  | [], [], _ => by simp
  | [], y :: ys, h => by simp at h
  | x :: xs, [], h => by simp at h
  | x :: xs, y :: ys, h => by
    have ih := sum_zip_mul_sub a b xs ys (by simpa using h)
    simp only [List.zip_cons_cons, List.map_cons, List.sum_cons, List.length_cons, ih]
    push_cast
    ring

theorem sum_map_sq_sub (a : ℚ) :
    ∀ (xs : List ℚ),
      (xs.map (fun x => (x - a) ^ 2)).sum
        = (xs.map (fun x => x * x)).sum - 2 * a * xs.sum + (xs.length : ℚ) * (a * a)
  | [] => by simp
  | x :: xs => by
    have ih := sum_map_sq_sub a xs
    simp only [List.map_cons, List.sum_cons, List.length_cons, ih]
    push_cast
    ring

theorem sum_of_constant (c : ℚ) :
    ∀ xs : List ℚ, (∀ x ∈ xs, x = c) →
      xs.sum = (xs.length : ℚ) * c ∧ (xs.map (fun x => x * x)).sum = (xs.length : ℚ) * (c * c)
  | [], _ => by simp
  | x :: xs, h => by
    have hx : x = c := h x (List.mem_cons_self x xs)
    have ih := sum_of_constant c xs (fun y hy => h y (List.mem_cons_of_mem x hy))
    simp only [List.sum_cons, List.map_cons, List.length_cons, ih.1, ih.2, hx]
    push_cast
    constructor <;> ring

/-! ## C1: the sample decoder -/

/-- Claim C1. For every raw delimited sample string the decoder emits exactly
one entry per comma token (`map` over the split, hence length-preserving and
entry-preserving); a token trimming to the empty string or to the
`"NULL"`/`"null"` sentinels decodes to the absent marker, a token whose
numeric coercion is `NaN` decodes to the absent marker, and every other token
decodes to its parsed value.  The decoder is a total function — no input
raises. -/
theorem C1_decoder_shape (data : String) :
    (parseSampleData data).length = (jsSplit ',' data).length
    ∧ parseSampleData data = (jsSplit ',' data).map parseToken
    ∧ (∀ v : String, (jsTrim v = "" ∨ jsTrim v = "NULL" ∨ jsTrim v = "null") →
        parseToken v = none)
    ∧ (∀ v : String, jsNum (jsTrim v) = none → parseToken v = none)
    ∧ (∀ (v : String) (q : ℚ), ¬(jsTrim v = "" ∨ jsTrim v = "NULL" ∨ jsTrim v = "null") →
        jsNum (jsTrim v) = some q → parseToken v = some q) := by
  refine ⟨by simp [parseSampleData], rfl, ?_, ?_, ?_⟩
  · intro v hv
    simp only [parseToken, if_pos hv]
  · intro v hv
    by_cases hs : jsTrim v = "" ∨ jsTrim v = "NULL" ∨ jsTrim v = "null"
    · simp only [parseToken, if_pos hs]
    · simp only [parseToken, if_neg hs, hv]
  · intro v q hs hv
    simp only [parseToken, if_neg hs, hv]

/-- Witness for C1 at concrete tokens: a sentinel, a malformed token and a
numeric token, plus length preservation on a string with an empty token. -/
theorem C1_decoder_shape_witness :
    parseToken " NULL " = none ∧ parseToken "x7b" = none
    ∧ parseToken " 2.5 " = some (5 / 2) ∧ (parseSampleData "1,,x7b").length = 3 := by
  refine ⟨(C1_decoder_shape "").2.2.1 " NULL " (by right; left; decide),
    (C1_decoder_shape "").2.2.2.1 "x7b" (by decide), ?_, ?_⟩
  · refine (C1_decoder_shape "").2.2.2.2 " 2.5 " (5 / 2) (by decide) ?_
    have ht : jsTrim " 2.5 " = "2.5" := by decide
    rw [ht]
    simp +decide [jsNum, splitAtExpChar, parseSignedMantissa, parseMantissa, natOfDigits,
      List.takeWhile, List.dropWhile]
    norm_num
  · exact (C1_decoder_shape "1,,x7b").1.trans (by decide)

/-! ## C5: the trend slope -/

/-- Modelled from the spec: the ordinary-least-squares slope of `ys` against
`xs`, as covariance over variance around the means (with Lean's division
junk value `0` for a zero-variance axis). -/
def olsSlopeSpec (xs ys : List ℚ) : ℚ :=
  let xbar := xs.sum / xs.length
  let ybar := ys.sum / ys.length
  ((xs.zip ys).map (fun p => (p.1 - xbar) * (p.2 - ybar))).sum /
    (xs.map (fun x => (x - xbar) ^ 2)).sum

theorem trendXHours_length (samples : List (String × ℚ)) (h : ℤ) :
    (trendXHours samples h).length = (trendValues samples).length := by
  simp [trendXHours, trendTimePoints, trendValues]

theorem ols_formula (xs ys : List ℚ) (hlen : xs.length = ys.length) :
    (if (ys.length : ℚ) * (xs.map (fun x => x * x)).sum - xs.sum * xs.sum = 0 then (0 : ℚ)
     else round2 (((ys.length : ℚ) * ((xs.zip ys).map (fun p => p.1 * p.2)).sum
        - xs.sum * ys.sum) /
        ((ys.length : ℚ) * (xs.map (fun x => x * x)).sum - xs.sum * xs.sum)))
      = round2 (olsSlopeSpec xs ys) := by
  have hcov := sum_zip_mul_sub (xs.sum / xs.length) (ys.sum / ys.length) xs ys hlen
  have hvar := sum_map_sq_sub (xs.sum / xs.length) xs
  simp only [olsSlopeSpec]
  rw [hcov, hvar, hlen]
  rcases Nat.eq_zero_or_pos ys.length with h0 | hpos
  · have hx0 : xs = [] := List.length_eq_zero.mp (hlen.trans h0)
    have hy0 : ys = [] := List.length_eq_zero.mp h0
    subst hx0
    subst hy0
    simp [round2_zero]
  · have hn : ((ys.length : ℚ)) ≠ 0 := by positivity
    have hv : (xs.map (fun x => x * x)).sum
        - 2 * (xs.sum / (ys.length : ℚ)) * xs.sum
        + ((ys.length : ℚ)) * ((xs.sum / (ys.length : ℚ)) * (xs.sum / (ys.length : ℚ)))
        = ((ys.length : ℚ) * (xs.map (fun x => x * x)).sum - xs.sum * xs.sum)
          / (ys.length : ℚ) := by
      field_simp
      ring
    have hc : ((xs.zip ys).map (fun p => p.1 * p.2)).sum
        - (xs.sum / (ys.length : ℚ)) * ys.sum - (ys.sum / (ys.length : ℚ)) * xs.sum
        + ((ys.length : ℚ)) * ((xs.sum / (ys.length : ℚ)) * (ys.sum / (ys.length : ℚ)))
        = ((ys.length : ℚ) * ((xs.zip ys).map (fun p => p.1 * p.2)).sum - xs.sum * ys.sum)
          / (ys.length : ℚ) := by
      field_simp
      ring
    rw [hv, hc]
    by_cases hden : (ys.length : ℚ) * (xs.map (fun x => x * x)).sum - xs.sum * xs.sum = 0
    · rw [if_pos hden, hden, zero_div, div_zero, round2_zero]
    · rw [if_neg hden]
      congr 1
      rw [div_div_div_cancel_right₀]
      exact hn

theorem computeTrendSlope_eq_ols (samples : List (String × ℚ)) (h : ℤ) :
    computeTrendSlope samples h
      = round2 (olsSlopeSpec (trendXHours samples h) (trendValues samples)) := by
  have key := ols_formula (trendXHours samples h) (trendValues samples)
    (trendXHours_length samples h)
  simpa only [computeTrendSlope] using key

theorem computeTrendSlope_zero_variance (samples : List (String × ℚ)) (h : ℤ)
    (hzv : ∀ t1 ∈ trendTimePoints samples h, ∀ t2 ∈ trendTimePoints samples h, t1 = t2) :
    computeTrendSlope samples h = 0 := by
  have hx0 : ∀ x ∈ trendXHours samples h, x = 0 := by
    intro x hx
    simp only [trendXHours] at hx
    rcases List.mem_map.mp hx with ⟨t, ht, rfl⟩
    have hne : trendTimePoints samples h ≠ [] := by
      intro hcon
      rw [hcon] at ht
      exact absurd ht (List.not_mem_nil t)
    have hhead : (trendTimePoints samples h).headD 0 ∈ trendTimePoints samples h := by
      rcases List.exists_cons_of_ne_nil hne with ⟨a, l, hal⟩
      rw [hal]
      exact List.mem_cons_self a l
    have := hzv t ht _ hhead
    rw [← this]
    simp
  have hsum := sum_of_constant 0 (trendXHours samples h) hx0
  simp only [computeTrendSlope]
  rw [hsum.1, hsum.2]
  simp

theorem parseSleepTime_at_2200 : parseSleepTime "22:00" 22 = 1320 := by
  simp +decide [parseSleepTime, jsSplit, splitCharList, jsNum, splitAtExpChar,
    parseSignedMantissa, parseMantissa, natOfDigits, List.takeWhile, List.dropWhile] <;> norm_num

theorem parseSleepTime_at_2300 : parseSleepTime "23:00" 22 = 1380 := by
  simp +decide [parseSleepTime, jsSplit, splitCharList, jsNum, splitAtExpChar,
    parseSignedMantissa, parseMantissa, natOfDigits, List.takeWhile, List.dropWhile] <;> norm_num

theorem parseSleepTime_at_0000 : parseSleepTime "00:00" 22 = 1440 := by
  simp +decide [parseSleepTime, jsSplit, splitCharList, jsNum, splitAtExpChar,
    parseSignedMantissa, parseMantissa, natOfDigits, List.takeWhile, List.dropWhile] <;> norm_num

theorem trendXHours_example :
    trendXHours [("22:00", 10), ("23:00", 12), ("00:00", 14)] 22 = [0, 1, 2] := by
  simp [trendXHours, trendTimePoints, parseSleepTime_at_2200, parseSleepTime_at_2300,
    parseSleepTime_at_0000] <;> norm_num

/-- Claim C5. The trend slope is the OLS slope of value against elapsed hours
since the first sample of the midnight-normalized timeline, rounded to two
decimals (the OLS quotient is taken with the junk value `0` for a
zero-variance axis); it is `0` whenever the normalized time axis has zero
variance; the example map `{"22:00": 10, "23:00": 12, "00:00": 14}` at start
hour 22 normalizes to hours `[0, 1, 2]` with slope `2`; a single-sample
series always yields slope `0`. -/
theorem C5_trend_slope :
    (∀ (samples : List (String × ℚ)) (h : ℤ),
      computeTrendSlope samples h
        = round2 (olsSlopeSpec (trendXHours samples h) (trendValues samples)))
    ∧ (∀ (samples : List (String × ℚ)) (h : ℤ),
        (∀ t1 ∈ trendTimePoints samples h, ∀ t2 ∈ trendTimePoints samples h, t1 = t2) →
        computeTrendSlope samples h = 0)
    ∧ trendXHours [("22:00", 10), ("23:00", 12), ("00:00", 14)] 22 = [0, 1, 2]
    ∧ computeTrendSlope [("22:00", 10), ("23:00", 12), ("00:00", 14)] 22 = 2
    ∧ (∀ (k : String) (v : ℚ) (h : ℤ), computeTrendSlope [(k, v)] h = 0) := by
  refine ⟨computeTrendSlope_eq_ols, computeTrendSlope_zero_variance, trendXHours_example,
    ?_, ?_⟩
  · simp only [computeTrendSlope, trendXHours_example, trendValues]
    norm_num [round2, round_eq]
  · intro k v h
    apply computeTrendSlope_zero_variance
    intro t1 h1 t2 h2
    simp only [trendTimePoints, List.map_cons, List.map_nil, List.mem_singleton] at h1 h2
    rw [h1, h2]

/-- Witness for C5: the zero-variance branch discharged at a concrete
two-sample map whose times coincide. -/
theorem C5_trend_slope_witness :
    computeTrendSlope [("10:00", 4), ("10:00", 9)] 22 = 0 := by
  have hp : parseSleepTime "10:00" 22 = 2040 := by
    simp +decide [parseSleepTime, jsSplit, splitCharList, jsNum, splitAtExpChar,
      parseSignedMantissa, parseMantissa, natOfDigits, List.takeWhile, List.dropWhile] <;>
      norm_num
  refine C5_trend_slope.2.1 [("10:00", 4), ("10:00", 9)] 22 ?_
  intro t1 h1 t2 h2
  simp only [trendTimePoints, List.map_cons, List.map_nil, hp] at h1 h2
  rcases List.mem_pair.mp h1 with rfl | rfl <;> rcases List.mem_pair.mp h2 with h | h <;>
    simp [h]

/-! ## C7: activity-zone durations -/

/-- The minute delta of an adjacent event pair. -/
def pairMinutes (p : ActivityZoneSample × ActivityZoneSample) : ℚ :=
  (p.2.timestamp - p.1.timestamp) / 60000

/-- Modelled from the spec: the total minutes attributed to zone tag `z` —
the sum, over adjacent pairs whose earlier event carries tag `z`, of the time
delta to the next event. -/
def zoneSumSpec (z : String) (samples : List ActivityZoneSample) : ℚ :=
  (((samples.zip samples.tail).filter (fun p => p.1.zone == z)).map pairMinutes).sum

theorem zoneStep_fields (acc : ZoneSummary) (p : ActivityZoneSample × ActivityZoneSample) :
    (zoneStep acc p).sedentary_minutes = acc.sedentary_minutes
      + (if p.1.zone = "SEDENTARY" ∧ pairMinutes p > 0 then pairMinutes p else 0)
    ∧ (zoneStep acc p).light_minutes = acc.light_minutes
      + (if p.1.zone = "LIGHT" ∧ pairMinutes p > 0 then pairMinutes p else 0)
    ∧ (zoneStep acc p).moderate_minutes = acc.moderate_minutes
      + (if p.1.zone = "MODERATE" ∧ pairMinutes p > 0 then pairMinutes p else 0)
    ∧ (zoneStep acc p).vigorous_minutes = acc.vigorous_minutes
      + (if p.1.zone = "VIGOROUS" ∧ pairMinutes p > 0 then pairMinutes p else 0) := by
  simp only [zoneStep, pairMinutes]
  split_ifs <;> simp_all

theorem zoneFold_char : ∀ (pairs : List (ActivityZoneSample × ActivityZoneSample))
    (acc : ZoneSummary),
    (pairs.foldl zoneStep acc).sedentary_minutes = acc.sedentary_minutes
      + (pairs.map (fun p =>
          if p.1.zone = "SEDENTARY" ∧ pairMinutes p > 0 then pairMinutes p else 0)).sum
    ∧ (pairs.foldl zoneStep acc).light_minutes = acc.light_minutes
      + (pairs.map (fun p =>
          if p.1.zone = "LIGHT" ∧ pairMinutes p > 0 then pairMinutes p else 0)).sum
    ∧ (pairs.foldl zoneStep acc).moderate_minutes = acc.moderate_minutes
      + (pairs.map (fun p =>
          if p.1.zone = "MODERATE" ∧ pairMinutes p > 0 then pairMinutes p else 0)).sum
    ∧ (pairs.foldl zoneStep acc).vigorous_minutes = acc.vigorous_minutes
      + (pairs.map (fun p =>
          if p.1.zone = "VIGOROUS" ∧ pairMinutes p > 0 then pairMinutes p else 0)).sum
  | [], acc => by simp
  | p :: rest, acc => by
    have ih := zoneFold_char rest (zoneStep acc p)
    have hf := zoneStep_fields acc p
    simp only [List.foldl_cons, List.map_cons, List.sum_cons, ih.1, ih.2.1, ih.2.2.1,
      ih.2.2.2, hf.1, hf.2.1, hf.2.2.1, hf.2.2.2]
    refine ⟨by ring, by ring, by ring, by ring⟩

theorem sum_ite_filter (z : String) :
    ∀ (pairs : List (ActivityZoneSample × ActivityZoneSample)),
      (∀ p ∈ pairs, 0 ≤ pairMinutes p) →
      (pairs.map (fun p => if p.1.zone = z ∧ pairMinutes p > 0 then pairMinutes p else 0)).sum
        = ((pairs.filter (fun p => p.1.zone == z)).map pairMinutes).sum
  | [], _ => by simp
  | p :: rest, hpos => by
    have ih := sum_ite_filter z rest (fun q hq => hpos q (List.mem_cons_of_mem p hq))
    have hp0 := hpos p (List.mem_cons_self p rest)
    simp only [List.map_cons, List.sum_cons, List.filter_cons]
    by_cases hz : p.1.zone = z
    · have hbeq : (p.1.zone == z) = true := beq_iff_eq.mpr hz
      rw [hbeq]
      rcases eq_or_lt_of_le hp0 with heq | hlt
      · rw [if_neg (fun hcon => absurd hcon.2 (by rw [← heq]; exact lt_irrefl 0))]
        simp [ih, ← heq]
      · rw [if_pos ⟨hz, hlt⟩]
        simp [ih]
    · have hbeq : (p.1.zone == z) = false := by simp [hz]
      rw [hbeq]
      rw [if_neg (fun hcon => hz hcon.1)]
      simp [ih]

theorem zip_tail_nonneg {samples : List ActivityZoneSample}
    (hc : List.Chain' (fun a b => a.timestamp ≤ b.timestamp) samples) :
    ∀ p ∈ samples.zip samples.tail, 0 ≤ pairMinutes p := by
  induction samples with
  | nil => simp
  | cons a l ih =>
    cases l with
    | nil => simp
    | cons b m =>
      rw [List.chain'_cons] at hc
      intro p hp
      rcases List.mem_cons.mp hp with rfl | hp2
      · simp only [pairMinutes]
        exact div_nonneg (by linarith [hc.1]) (by norm_num)
      · exact ih hc.2 p hp2

/-- Claim C7. For a chronologically ordered event sequence, each adjacent
delta is attributed to the zone tag of the earlier event; only the four
recognized tags accumulate (a sequence of only unrecognized tags yields the
all-zero summary); each per-category total is the rounding — applied once,
after full accumulation — of the exact sum of its deltas; and the final event
starts no interval (sums range over `zip samples samples.tail`).  The example
`[(00:00, LIGHT), (00:10, MODERATE), (00:20, SLEEP)]` yields 10 light and 10
moderate minutes and nothing else. -/
theorem C7_zone_durations :
    (∀ samples : List ActivityZoneSample,
      List.Chain' (fun a b => a.timestamp ≤ b.timestamp) samples →
      computeZoneDurations samples
        = ⟨(round (zoneSumSpec "SEDENTARY" samples) : ℤ),
           (round (zoneSumSpec "LIGHT" samples) : ℤ),
           (round (zoneSumSpec "MODERATE" samples) : ℤ),
           (round (zoneSumSpec "VIGOROUS" samples) : ℤ)⟩)
    ∧ (∀ samples : List ActivityZoneSample,
        List.Chain' (fun a b => a.timestamp ≤ b.timestamp) samples →
        (∀ p ∈ samples.zip samples.tail,
          p.1.zone ≠ "SEDENTARY" ∧ p.1.zone ≠ "LIGHT" ∧ p.1.zone ≠ "MODERATE" ∧
            p.1.zone ≠ "VIGOROUS") →
        computeZoneDurations samples = ⟨0, 0, 0, 0⟩)
    ∧ computeZoneDurations [⟨0, "LIGHT"⟩, ⟨600000, "MODERATE"⟩, ⟨1200000, "SLEEP"⟩]
        = ⟨0, 10, 10, 0⟩ := by
  have main : ∀ samples : List ActivityZoneSample,
      List.Chain' (fun a b => a.timestamp ≤ b.timestamp) samples →
      computeZoneDurations samples
        = ⟨(round (zoneSumSpec "SEDENTARY" samples) : ℤ),
           (round (zoneSumSpec "LIGHT" samples) : ℤ),
           (round (zoneSumSpec "MODERATE" samples) : ℤ),
           (round (zoneSumSpec "VIGOROUS" samples) : ℤ)⟩ := by
    intro samples hc
    have hpos := zip_tail_nonneg hc
    have hch := zoneFold_char (samples.zip samples.tail) ⟨0, 0, 0, 0⟩
    simp only [computeZoneDurations, zoneSumSpec]
    rw [hch.1, hch.2.1, hch.2.2.1, hch.2.2.2,
      sum_ite_filter _ _ hpos, sum_ite_filter _ _ hpos, sum_ite_filter _ _ hpos,
      sum_ite_filter _ _ hpos]
    simp
  refine ⟨main, ?_, ?_⟩
  · intro samples hc hz
    rw [main samples hc]
    have hempty : ∀ z : String, z = "SEDENTARY" ∨ z = "LIGHT" ∨ z = "MODERATE" ∨
        z = "VIGOROUS" → zoneSumSpec z samples = 0 := by
      intro z hzs
      have : (samples.zip samples.tail).filter (fun p => p.1.zone == z) = [] := by
        apply List.filter_eq_nil.mpr
        intro p hp
        have h4 := hz p hp
        rcases hzs with rfl | rfl | rfl | rfl
        · simpa using h4.1
        · simpa using h4.2.1
        · simpa using h4.2.2.1
        · simpa using h4.2.2.2
      simp [zoneSumSpec, this]
    rw [hempty "SEDENTARY" (by tauto), hempty "LIGHT" (by tauto),
      hempty "MODERATE" (by tauto), hempty "VIGOROUS" (by tauto)]
    simp
  · simp +decide [computeZoneDurations, zoneStep] <;> norm_num [round_eq]

/-- Witness for C7: the main equality and the unrecognized-only branch
discharged at concrete chronological event lists. -/
theorem C7_zone_durations_witness :
    computeZoneDurations [⟨0, "SEDENTARY"⟩, ⟨120000, "VIGOROUS"⟩, ⟨300000, "NON_WEAR"⟩]
      = ⟨(round (zoneSumSpec "SEDENTARY"
            [⟨0, "SEDENTARY"⟩, ⟨120000, "VIGOROUS"⟩, ⟨300000, "NON_WEAR"⟩]) : ℤ),
         (round (zoneSumSpec "LIGHT"
            [⟨0, "SEDENTARY"⟩, ⟨120000, "VIGOROUS"⟩, ⟨300000, "NON_WEAR"⟩]) : ℤ),
         (round (zoneSumSpec "MODERATE"
            [⟨0, "SEDENTARY"⟩, ⟨120000, "VIGOROUS"⟩, ⟨300000, "NON_WEAR"⟩]) : ℤ),
         (round (zoneSumSpec "VIGOROUS"
            [⟨0, "SEDENTARY"⟩, ⟨120000, "VIGOROUS"⟩, ⟨300000, "NON_WEAR"⟩]) : ℤ)⟩
    ∧ computeZoneDurations [⟨0, "SLEEP"⟩, ⟨600000, "NON_WEAR"⟩] = ⟨0, 0, 0, 0⟩ := by
  constructor
  · refine C7_zone_durations.1 _ ?_
    simp only [List.chain'_cons, List.chain'_singleton, and_true]
    norm_num
  · refine C7_zone_durations.2.1 _ ?_ ?_
    · simp only [List.chain'_cons, List.chain'_singleton, and_true]
      norm_num
    · intro p hp
      simp only [List.tail_cons, List.zip_cons_cons, List.zip_nil_right,
        List.mem_singleton] at hp
      subst hp
      exact ⟨by decide, by decide, by decide, by decide⟩

/-! ## C8: hypnogram segmentation and the final point -/

theorem mkSegments_length : ∀ l : List HypEntry, (mkSegments l).length = l.length
  | [] => rfl
  | [_] => rfl
  | _ :: f :: rest => by
    simp only [mkSegments, List.length_cons, mkSegments_length (f :: rest)]

theorem mkSegments_get? : ∀ (l : List HypEntry) (i : ℕ) (e f : HypEntry),
    l.get? i = some e → l.get? (i + 1) = some f →
    (mkSegments l).get? i = some ⟨e.stage, e.minutes, f.minutes - e.minutes⟩
  | [], i, e, f, he, _ => by simp at he
  | [_], i, e, f, _, hf => by
    rcases i with _ | n <;> simp at hf
  | x :: y :: rest, i, e, f, he, hf => by
    cases i with
    | zero =>
      simp only [List.get?] at he hf
      injection he with he
      injection hf with hf
      subst he
      subst hf
      rfl
    | succ n =>
      have := mkSegments_get? (y :: rest) n e f (by simpa using he) (by simpa using hf)
      simpa [mkSegments] using this

theorem mkSegments_getLast? : ∀ l : List HypEntry,
    (mkSegments l).getLast? = (l.getLast?).map (fun e => (⟨e.stage, e.minutes, 0⟩ : StageSegment))
  | [] => rfl
  | [_] => rfl
  | e :: f :: rest => by
    have ih := mkSegments_getLast? (f :: rest)
    have hne : mkSegments (f :: rest) ≠ [] := by
      intro hcon
      have := mkSegments_length (f :: rest)
      rw [hcon] at this
      simp at this
    rcases List.exists_cons_of_ne_nil hne with ⟨m, ms, hm⟩
    show (⟨e.stage, e.minutes, f.minutes - e.minutes⟩ :: mkSegments (f :: rest)).getLast?
      = ((e :: f :: rest).getLast?).map _
    rw [hm, List.getLast?_cons_cons, ← hm, ih, List.getLast?_cons_cons]

theorem parseSleepTime_at_2330 : parseSleepTime "23:30" 22 = 1410 := by
  simp +decide [parseSleepTime, jsSplit, splitCharList, jsNum, splitAtExpChar,
    parseSignedMantissa, parseMantissa, natOfDigits, List.takeWhile, List.dropWhile] <;> norm_num

/-- A `Sleep` record with no optional fields, for exercising the hypnogram
segmentation in isolation. -/
def sleepStub : Sleep :=
  ⟨"2024-01-01", "2024-01-01", "2024-01-02", none, none, none, none, none, none, none,
    none, none, none, none, none, none, none, none, none, none⟩

theorem beq_rat_2_4 : ((2 : ℚ) == 4) = false := by
  rw [beq_eq_false_iff_ne]
  norm_num

theorem beq_rat_4_4 : ((4 : ℚ) == 4) = true := by
  rw [beq_iff_eq]

theorem beq_rat_1_4 : ((1 : ℚ) == 4) = false := by
  rw [beq_eq_false_iff_ne]
  norm_num

theorem hypEntries_pair : hypEntries [("22:00", 2), ("23:00", 4)] 22
    = [⟨"22:00", 2, 1320⟩, ⟨"23:00", 4, 1380⟩] := by
  norm_num [hypEntries, sortByMinutes, insertByMinutes, parseSleepTime_at_2200,
    parseSleepTime_at_2300]

theorem hypEntries_triple : hypEntries [("22:00", 2), ("23:00", 4), ("23:30", 1)] 22
    = [⟨"22:00", 2, 1320⟩, ⟨"23:00", 4, 1380⟩, ⟨"23:30", 1, 1410⟩] := by
  norm_num [hypEntries, sortByMinutes, insertByMinutes, parseSleepTime_at_2200,
    parseSleepTime_at_2300, parseSleepTime_at_2330]

/-- Claim C8, counterexample. The code *does* include the final hypnogram point
as a (zero-duration) segment: with deep sleep (stage 4) occurring only at the
final point, `time_to_first_deep_sleep_min` is 60, not the 0 the claim's
"never counts as the first deep-sleep segment" requires; and a final REM
(stage 1) point *is* counted by the cycle heuristic (1, not 0). -/
theorem C8_counterexample :
    mkSegments (hypEntries [("22:00", 2), ("23:00", 4)] 22)
      = [⟨2, 1320, 60⟩, ⟨4, 1380, 0⟩]
    ∧ (computeSleepArchitecture [("22:00", 2), ("23:00", 4)] sleepStub
        22).time_to_first_deep_sleep_min = 60
    ∧ (computeSleepArchitecture [("22:00", 2), ("23:00", 4)] sleepStub
        22).time_to_first_deep_sleep_min ≠ 0
    ∧ (computeSleepArchitecture [("22:00", 2), ("23:00", 4), ("23:30", 1)] sleepStub
        22).number_of_rem_cycles = 1
    ∧ (computeSleepArchitecture [("22:00", 2), ("23:00", 4), ("23:30", 1)] sleepStub
        22).number_of_rem_cycles ≠ 0 := by
  have h60 : (computeSleepArchitecture [("22:00", 2), ("23:00", 4)] sleepStub
      22).time_to_first_deep_sleep_min = 60 := by
    simp only [computeSleepArchitecture, hypEntries_pair]
    norm_num [mkSegments, List.find?, countRemCycles, round_eq, sleepStub,
      beq_rat_2_4, beq_rat_4_4]
  have h1 : (computeSleepArchitecture [("22:00", 2), ("23:00", 4), ("23:30", 1)] sleepStub
      22).number_of_rem_cycles = 1 := by
    simp only [computeSleepArchitecture, hypEntries_triple]
    norm_num [mkSegments, List.find?, countRemCycles, round_eq, sleepStub,
      beq_rat_2_4, beq_rat_4_4, beq_rat_1_4]
  refine ⟨?_, h60, by rw [h60]; norm_num, h1, by rw [h1]; norm_num⟩
  rw [hypEntries_pair]
  norm_num [mkSegments]

/-- Claim C8, amended. After sorting, *every* point of the hypnogram yields a
segment: the segment list has the same length as the entry list, segment `i`
holds stage `i` from its own timestamp to the next one, and the final
segment has duration 0 (it can therefore be found as the first deep-sleep
segment and be counted as a REM transition, as the counterexample shows). -/
theorem C8_segments_amended :
    (∀ l : List HypEntry, (mkSegments l).length = l.length)
    ∧ (∀ (l : List HypEntry) (i : ℕ) (e f : HypEntry),
        l.get? i = some e → l.get? (i + 1) = some f →
        (mkSegments l).get? i = some ⟨e.stage, e.minutes, f.minutes - e.minutes⟩)
    ∧ (∀ l : List HypEntry,
        (mkSegments l).getLast?
          = (l.getLast?).map (fun e => (⟨e.stage, e.minutes, 0⟩ : StageSegment)))
    ∧ (computeSleepArchitecture [("22:00", 2), ("23:00", 4)] sleepStub
        22).time_to_first_deep_sleep_min = 60
    ∧ (computeSleepArchitecture [("22:00", 2), ("23:00", 4), ("23:30", 1)] sleepStub
        22).number_of_rem_cycles = 1 := by
  refine ⟨mkSegments_length, mkSegments_get?, mkSegments_getLast?, ?_, ?_⟩
  · simp only [computeSleepArchitecture, hypEntries_pair]
    norm_num [mkSegments, List.find?, countRemCycles, round_eq, sleepStub,
      beq_rat_2_4, beq_rat_4_4]
  · simp only [computeSleepArchitecture, hypEntries_triple]
    norm_num [mkSegments, List.find?, countRemCycles, round_eq, sleepStub,
      beq_rat_2_4, beq_rat_4_4, beq_rat_1_4]

/-- Witness for C8 (amended): the segment-shape clause applied to a concrete
two-entry list. -/
theorem C8_segments_amended_witness :
    (mkSegments [⟨"00:10", 2, 10⟩, ⟨"00:40", 4, 40⟩]).get? 0
      = some ⟨2, 10, (40 : ℚ) - 10⟩ :=
  C8_segments_amended.2.1 [⟨"00:10", 2, 10⟩, ⟨"00:40", 4, 40⟩] 0 ⟨"00:10", 2, 10⟩
    ⟨"00:40", 4, 40⟩ rfl rfl

/-! ## C10: missing time-of-day component falls back to start hour 22 -/

theorem sleepStartHourOf_no_T (s : String) (h : (jsSplit 'T' s).length = 1) :
    sleepStartHourOf s = 22 := by
  have hdrop : (jsSplit 'T' s).drop 1 = [] := by
    rw [List.drop_eq_nil_iff_le, h]
  simp only [sleepStartHourOf, hdrop]

/-- Claim C10. When the sleep start-time string has no `'T'`-separated
time-of-day component, preprocessing falls back to session start hour 22:
the derived hour is 22, heart-rate stats and sleep architecture are computed
with hour 22, and under hour 22 every well-formed sample time with hour
strictly below 18 is shifted by 1440 minutes to the following day. -/
theorem C10_start_hour_fallback :
    (∀ s : String, (jsSplit 'T' s).length = 1 → sleepStartHourOf s = 22)
    ∧ (∀ sleep : Sleep, (jsSplit 'T' sleep.sleep_start_time).length = 1 →
        ((preprocessSleep sleep).heart_rate
          = match sleep.heart_rate_samples with
            | some samples =>
              if samples.length > 0 then some (computeSleepHrStats samples 22) else none
            | none => none)
        ∧ ((preprocessSleep sleep).sleep_architecture
          = match sleep.hypnogram with
            | some hyp =>
              if hyp.length > 1 then some (computeSleepArchitecture hyp sleep 22) else none
            | none => none))
    ∧ (∀ (t : String) (hq mq : ℚ),
        jsNum ((jsSplit ':' t).getD 0 "") = some hq →
        jsNum ((jsSplit ':' t).getD 1 "") = some mq →
        hq < 18 → parseSleepTime t 22 = hq * 60 + mq + 1440) := by
  refine ⟨sleepStartHourOf_no_T, ?_, ?_⟩
  · intro sleep h
    have h22 := sleepStartHourOf_no_T sleep.sleep_start_time h
    constructor
    · simp only [preprocessSleep, h22]
    · simp only [preprocessSleep, h22]
  · intro t hq mq hh hm hlt
    simp only [parseSleepTime, hh, hm, Option.getD_some]
    rw [if_pos ⟨by norm_num, hlt⟩]

/-- Witness for C10: a sleep record whose start time is a bare date; its
heart-rate field is computed with hour 22, and a `"01:00"` sample rolls over
to the next day. -/
theorem C10_start_hour_fallback_witness :
    sleepStartHourOf "2024-01-01" = 22
    ∧ (preprocessSleep ⟨"2024-01-01", "2024-01-01", "2024-01-02", none, none, none, none,
        none, none, none, none, none, none, none, none, none, none, none, none,
        some [("23:00", 60), ("01:00", 50)]⟩).heart_rate
      = some (computeSleepHrStats [("23:00", 60), ("01:00", 50)] 22)
    ∧ parseSleepTime "01:00" 22 = 1 * 60 + 0 + 1440 := by
  refine ⟨C10_start_hour_fallback.1 "2024-01-01" (by decide), ?_, ?_⟩
  · have h2 := (C10_start_hour_fallback.2.1 ⟨"2024-01-01", "2024-01-01", "2024-01-02",
      none, none, none, none, none, none, none, none, none, none, none, none, none,
      none, none, none, some [("23:00", 60), ("01:00", 50)]⟩ (by decide)).1
    rw [h2]
    norm_num
  · refine C10_start_hour_fallback.2.2 "01:00" 1 0 ?_ ?_ (by norm_num)
    · have hs : (jsSplit ':' "01:00").getD 0 "" = "01" := by decide
      rw [hs]
      simp +decide [jsNum, splitAtExpChar, parseSignedMantissa, parseMantissa,
        natOfDigits, List.takeWhile, List.dropWhile] <;> norm_num
    · have hs : (jsSplit ':' "01:00").getD 1 "" = "00" := by decide
      rw [hs]
      simp +decide [jsNum, splitAtExpChar, parseSignedMantissa, parseMantissa,
        natOfDigits, List.takeWhile, List.dropWhile] <;> norm_num

/-! ## C9: absent summaries for empty series -/

/-- A channel of an exercise yields zero usable samples: if the type-`t`
channel is present at all, its decoded values filter to the empty series
(vacuously true when the channel is absent). -/
def channelEmpty (raw : List ExerciseSample) (t : ℤ) : Prop :=
  ∀ sd, samplesByTypeGet raw t = some sd → filterNulls sd.1 = []

/-- Claim C9, counterexample. A nightly-recharge record carrying a device HRV
average but no HRV samples (zero usable samples) still gets an `hrv` summary,
and it is the zero-filled `{avg, min: 0, max: 0, trend_slope: 0}` record —
the claim's "the summary field is absent … never a zero-filled record" fails. -/
theorem C9_counterexample :
    (preprocessNightlyRecharge
        ⟨"2024-01-02", none, none, none, none, none, some 50, none, none, none⟩).hrv
      = some ⟨50, 0, 0, 0⟩
    ∧ (preprocessNightlyRecharge
        ⟨"2024-01-02", none, none, none, none, none, some 50, none, none, none⟩).hrv
      ≠ none := by
  refine ⟨rfl, ?_⟩
  intro hcon
  simp only [preprocessNightlyRecharge] at hcon
  exact Option.noConfusion hcon

/-- Claim C9, amended. Each exercise channel summary is governed by its own
channel alone: whenever a channel yields zero usable samples after filtering
(or is absent), its summary field is absent, regardless of the other
channels.  Nightly-recharge HRV and breathing summaries are absent exactly
when the corresponding device-reported average is absent; when the average is
present they are always emitted — with the real min/max/trend statistics when
the sample series is non-empty, and as the zero-filled
`{avg, min: 0, max: 0, trend_slope: 0}` record when the sample series is
missing or empty.  Activity hourly step buckets are empty when step samples
are missing or empty; the zone summary is always emitted, zero-filled when
zone samples are missing or empty. -/
theorem C9_empty_series_amended :
    (∀ raw : List ExerciseSample, channelEmpty raw 1 → (preprocessSamples raw).pace = none)
    ∧ (∀ raw : List ExerciseSample, channelEmpty raw 2 →
        (preprocessSamples raw).cadence = none)
    ∧ (∀ raw : List ExerciseSample, channelEmpty raw 3 →
        (preprocessSamples raw).altitude = none)
    ∧ (∀ raw : List ExerciseSample, channelEmpty raw 4 →
        (preprocessSamples raw).power = none)
    ∧ (∀ raw : List ExerciseSample, channelEmpty raw 5 →
        (preprocessSamples raw).power_pedaling_index = none)
    ∧ (∀ raw : List ExerciseSample, channelEmpty raw 6 →
        (preprocessSamples raw).power_lr_balance = none)
    ∧ (∀ raw : List ExerciseSample, channelEmpty raw 7 →
        (preprocessSamples raw).air_pressure = none)
    ∧ (∀ raw : List ExerciseSample, channelEmpty raw 8 →
        (preprocessSamples raw).running_cadence = none)
    ∧ (∀ raw : List ExerciseSample, channelEmpty raw 9 →
        (preprocessSamples raw).temperature = none)
    ∧ (∀ raw : List ExerciseSample, channelEmpty raw 11 →
        (preprocessSamples raw).rr_intervals = none)
    ∧ (∀ r : NightlyRecharge,
        (preprocessNightlyRecharge r).hrv = none ↔ r.heart_rate_variability_avg = none)
    ∧ (∀ (r : NightlyRecharge) (a : ℚ), r.heart_rate_variability_avg = some a →
        (r.hrv_samples = none ∨ r.hrv_samples = some []) →
        (preprocessNightlyRecharge r).hrv = some ⟨a, 0, 0, 0⟩)
    ∧ (∀ (r : NightlyRecharge) (a : ℚ) (samples : List (String × ℚ)),
        r.heart_rate_variability_avg = some a → r.hrv_samples = some samples →
        0 < samples.length →
        (preprocessNightlyRecharge r).hrv
          = some ⟨a, (computeSampleStats samples (rechargeStartHour r)).1,
              (computeSampleStats samples (rechargeStartHour r)).2.1,
              (computeSampleStats samples (rechargeStartHour r)).2.2⟩)
    ∧ (∀ r : NightlyRecharge,
        (preprocessNightlyRecharge r).breathing_rate = none ↔ r.breathing_rate_avg = none)
    ∧ (∀ (r : NightlyRecharge) (a : ℚ), r.breathing_rate_avg = some a →
        (r.breathing_samples = none ∨ r.breathing_samples = some []) →
        (preprocessNightlyRecharge r).breathing_rate = some ⟨a, 0, 0, 0⟩)
    ∧ (∀ (r : NightlyRecharge) (a : ℚ) (samples : List (String × ℚ)),
        r.breathing_rate_avg = some a → r.breathing_samples = some samples →
        0 < samples.length →
        (preprocessNightlyRecharge r).breathing_rate
          = some ⟨a, (computeSampleStats samples (rechargeStartHour r)).1,
              (computeSampleStats samples (rechargeStartHour r)).2.1,
              (computeSampleStats samples (rechargeStartHour r)).2.2⟩)
    ∧ (∀ act : DailyActivity,
        (preprocessActivity act none).hourly_steps = []
        ∧ (preprocessActivity act none).zone_summary = ⟨0, 0, 0, 0⟩)
    ∧ (∀ (act : DailyActivity) (sm : ActivitySamples),
        (sm.steps_samples = none ∨ sm.steps_samples = some []) →
        (preprocessActivity act (some sm)).hourly_steps = [])
    ∧ (∀ (act : DailyActivity) (sm : ActivitySamples),
        (sm.activity_zones_samples = none ∨ sm.activity_zones_samples = some []) →
        (preprocessActivity act (some sm)).zone_summary = ⟨0, 0, 0, 0⟩) := by
  refine ⟨?_, ?_, ?_, ?_, ?_, ?_, ?_, ?_, ?_, ?_, ?_, ?_, ?_, ?_, ?_, ?_, ?_, ?_, ?_⟩
  · intro raw hch
    simp only [preprocessSamples]
    cases hget : samplesByTypeGet raw 1 with
    | none => simp [hget]
    | some sd => simp [hget, hch sd hget, processSpeedSplits]
  · intro raw hch
    simp only [preprocessSamples]
    cases hget : samplesByTypeGet raw 2 with
    | none => simp [hget]
    | some sd => simp [hget, hch sd hget, simpleAvgMax]
  · intro raw hch
    simp only [preprocessSamples]
    cases hget : samplesByTypeGet raw 3 with
    | none => simp [hget]
    | some sd => simp [hget, hch sd hget, processAltitude]
  · intro raw hch
    simp only [preprocessSamples]
    cases hget : samplesByTypeGet raw 4 with
    | none => simp [hget]
    | some sd => simp [hget, hch sd hget, processPower]
  · intro raw hch
    simp only [preprocessSamples]
    cases hget : samplesByTypeGet raw 5 with
    | none => simp [hget]
    | some sd => simp [hget, hch sd hget, simpleAvg]
  · intro raw hch
    simp only [preprocessSamples]
    cases hget : samplesByTypeGet raw 6 with
    | none => simp [hget]
    | some sd => simp [hget, hch sd hget, simpleAvg]
  · intro raw hch
    simp only [preprocessSamples]
    cases hget : samplesByTypeGet raw 7 with
    | none => simp [hget]
    | some sd => simp [hget, hch sd hget]
  · intro raw hch
    simp only [preprocessSamples]
    cases hget : samplesByTypeGet raw 8 with
    | none => simp [hget]
    | some sd => simp [hget, hch sd hget, simpleAvgMax]
  · intro raw hch
    simp only [preprocessSamples]
    cases hget : samplesByTypeGet raw 9 with
    | none => simp [hget]
    | some sd => simp [hget, hch sd hget]
  · intro raw hch
    simp only [preprocessSamples]
    cases hget : samplesByTypeGet raw 11 with
    | none => simp [hget]
    | some sd => simp [hget, hch sd hget, processRrIntervals]
  · intro r
    rcases ha : r.heart_rate_variability_avg with _ | a
    · simp [preprocessNightlyRecharge, ha]
    · simp only [preprocessNightlyRecharge, ha]
      constructor
      · intro hnone
        exfalso
        rcases hs : r.hrv_samples with _ | samples
        · rw [hs] at hnone
          simp at hnone
        · rw [hs] at hnone
          by_cases hlen : samples.length > 0 <;> simp [hlen] at hnone
      · intro hcon
        simp at hcon
  · intro r a ha hs
    rcases hs with hs | hs <;> simp only [preprocessNightlyRecharge, ha, hs] <;> simp
  · intro r a samples ha hs hlen
    simp only [preprocessNightlyRecharge, ha, hs]
    simp [hlen]
  · intro r
    rcases ha : r.breathing_rate_avg with _ | a
    · simp [preprocessNightlyRecharge, ha]
    · simp only [preprocessNightlyRecharge, ha]
      constructor
      · intro hnone
        exfalso
        rcases hs : r.breathing_samples with _ | samples
        · rw [hs] at hnone
          simp at hnone
        · rw [hs] at hnone
          by_cases hlen : samples.length > 0 <;> simp [hlen] at hnone
      · intro hcon
        simp at hcon
  · intro r a ha hs
    rcases hs with hs | hs <;> simp only [preprocessNightlyRecharge, ha, hs] <;> simp
  · intro r a samples ha hs hlen
    simp only [preprocessNightlyRecharge, ha, hs]
    simp [hlen]
  · intro act
    constructor <;> simp only [preprocessActivity]
  · intro act sm hs
    rcases hs with hs | hs <;> simp [preprocessActivity, hs, aggregateHourlySteps]
  · intro act sm hs
    rcases hs with hs | hs <;> simp [preprocessActivity, hs, computeZoneDurations]

/-- The nightly-recharge record exercising the sample-present branch of C9. -/
def rechargeWitness : NightlyRecharge :=
  ⟨"2024-01-05", none, none, none, none, none, some 50, none, some [("23:00", 55)], none⟩

/-- Witness for C9 (amended): a mixed exercise whose cadence channel alone is
all-sentinel loses only its cadence field; recharge records exercise the
absent-average, zero-filled and samples-present branches; an activity with
empty step and zone sample lists gets empty hourly steps and the zero-filled
zone summary. -/
theorem C9_empty_series_amended_witness :
    (preprocessSamples [⟨1, 2, "NULL"⟩, ⟨1, 4, "100,200"⟩]).cadence = none
    ∧ (preprocessNightlyRecharge
        ⟨"2024-01-04", none, none, none, none, none, none, none, none, none⟩).hrv = none
    ∧ (preprocessNightlyRecharge rechargeWitness).hrv
      = some ⟨50, (computeSampleStats [("23:00", 55)] (rechargeStartHour rechargeWitness)).1,
          (computeSampleStats [("23:00", 55)] (rechargeStartHour rechargeWitness)).2.1,
          (computeSampleStats [("23:00", 55)] (rechargeStartHour rechargeWitness)).2.2⟩
    ∧ (preprocessNightlyRecharge
        ⟨"2024-01-03", none, none, none, none, none, none, some 16, none, some []⟩).breathing_rate
      = some ⟨16, 0, 0, 0⟩
    ∧ (preprocessActivity ⟨none, none, none, 1800, none, none, none⟩
        (some ⟨some [], some []⟩)).hourly_steps = []
    ∧ (preprocessActivity ⟨none, none, none, 1800, none, none, none⟩
        (some ⟨some [], some []⟩)).zone_summary = ⟨0, 0, 0, 0⟩ := by
  obtain ⟨h1, h2, h3, h4, h5, h6, h7, h8, h9, h10, h11, h12, h13, h14, h15, h16, h17,
    h18, h19⟩ := C9_empty_series_amended
  refine ⟨h2 [⟨1, 2, "NULL"⟩, ⟨1, 4, "100,200"⟩] ?_,
    (h11 ⟨"2024-01-04", none, none, none, none, none, none, none, none, none⟩).mpr rfl,
    h13 rechargeWitness 50 [("23:00", 55)] rfl rfl (by norm_num),
    h15 ⟨"2024-01-03", none, none, none, none, none, none, some 16, none, some []⟩ 16 rfl
      (Or.inr rfl),
    h18 ⟨none, none, none, 1800, none, none, none⟩ ⟨some [], some []⟩ (Or.inr rfl),
    h19 ⟨none, none, none, 1800, none, none, none⟩ ⟨some [], some []⟩ (Or.inr rfl)⟩
  intro sd hsd
  have hv : samplesByTypeGet [⟨1, 2, "NULL"⟩, ⟨1, 4, "100,200"⟩] 2
      = some (parseSampleData "NULL", 1) := by
    simp +decide [samplesByTypeGet, List.find?]
  rw [hv] at hsd
  injection hsd with hsd
  rw [← hsd]
  decide

/-! ## C2: speed/distance alignment in pace splitting -/

/-- Modelled from the spec: drop absent entries from two co-indexed channels
using the same positional rule on both simultaneously — keep exactly the
positions where both entries are present. -/
def alignedPairs (speed dist : List (Option ℚ)) : List (ℚ × ℚ) :=
  (speed.zip dist).filterMap (fun p =>
    match p.1, p.2 with
    | some a, some b => some (a, b)
    | _, _ => none)

/-- Modelled from the spec: pace splitting over the simultaneously filtered
channels. -/
def alignedPaceSpec (speed : List (Option ℚ)) (rate : ℚ) (dist : List (Option ℚ)) :
    Option PaceResult :=
  processSpeedSplits ((alignedPairs speed dist).map (fun p => p.1)) rate
    (some ((alignedPairs speed dist).map (fun p => p.2)))

theorem filterNulls_eq_aligned : ∀ (a b : List (Option ℚ)),
    a.map Option.isSome = b.map Option.isSome →
    filterNulls a = (alignedPairs a b).map (fun p => p.1)
    ∧ filterNulls b = (alignedPairs a b).map (fun p => p.2)
  | [], [], _ => by simp [filterNulls, alignedPairs]
  | [], _ :: _, h => by simp at h
  | _ :: _, [], h => by simp at h
  | x :: xs, y :: ys, h => by
    simp only [List.map_cons, List.cons.injEq] at h
    have ih := filterNulls_eq_aligned xs ys h.2
    cases x with
    | none =>
      cases y with
      | none =>
        simpa [filterNulls, alignedPairs, List.filterMap_cons] using ih
      | some b => simp at h
    | some a =>
      cases y with
      | none => simp at h
      | some b =>
        simpa [filterNulls, alignedPairs, List.filterMap_cons] using ih

theorem parseSampleData_102030 :
    parseSampleData "10,30,20" = [some 10, some 30, some 20] := by
  simp +decide [parseSampleData, jsSplit, splitCharList, parseToken, jsTrim, jsNum,
    splitAtExpChar, parseSignedMantissa, parseMantissa, natOfDigits, List.takeWhile,
    List.dropWhile] <;> norm_num

theorem parseSampleData_dist_gap :
    parseSampleData "0,,1100" = [some 0, none, some 1100] := by
  simp +decide [parseSampleData, jsSplit, splitCharList, parseToken, jsTrim, jsNum,
    splitAtExpChar, parseSignedMantissa, parseMantissa, natOfDigits, List.takeWhile,
    List.dropWhile] <;> norm_num

theorem samplesByTypeGet_pair_1 (d1 d2 : String) (r1 r2 : ℚ) :
    samplesByTypeGet [⟨r1, 1, d1⟩, ⟨r2, 10, d2⟩] 1 = some (parseSampleData d1, r1) := by
  simp +decide [samplesByTypeGet, List.find?]

theorem samplesByTypeGet_pair_10 (d1 d2 : String) (r1 r2 : ℚ) :
    samplesByTypeGet [⟨r1, 1, d1⟩, ⟨r2, 10, d2⟩] 10 = some (parseSampleData d2, r2) := by
  simp +decide [samplesByTypeGet, List.find?]

theorem preprocessSamples_pace_pair (d1 d2 : String) (r1 r2 : ℚ) :
    (preprocessSamples [⟨r1, 1, d1⟩, ⟨r2, 10, d2⟩]).pace
      = processSpeedSplits (filterNulls (parseSampleData d1)) r1
          (some (filterNulls (parseSampleData d2))) := by
  simp only [preprocessSamples, samplesByTypeGet_pair_1, samplesByTypeGet_pair_10,
    Option.map_some']

/-- Claim C2, counterexample. The code filters the speed and distance channels
independently, not with the simultaneous positional rule: for speed
`"10,30,20"` (no absent entries) and distance `"0,,1100"` (absent middle
entry), the pipeline averages speed over filtered indices 0–1 (original
positions 0 and 1), `avg 20 km/h, pace 3`, while the spec's simultaneous
filtering yields original positions 0 and 2, `avg 15 km/h, pace 4`. -/
theorem C2_counterexample :
    (preprocessSamples [⟨1, 1, "10,30,20"⟩, ⟨1, 10, "0,,1100"⟩]).pace
      = some ⟨[⟨1, 3, 20⟩]⟩
    ∧ alignedPaceSpec (parseSampleData "10,30,20") 1 (parseSampleData "0,,1100")
      = some ⟨[⟨1, 4, 15⟩]⟩
    ∧ (preprocessSamples [⟨1, 1, "10,30,20"⟩, ⟨1, 10, "0,,1100"⟩]).pace
      ≠ alignedPaceSpec (parseSampleData "10,30,20") 1 (parseSampleData "0,,1100") := by
  have hfs : filterNulls [some 10, some 30, some 20] = [10, 30, 20] := by
    simp [filterNulls]
  have hfd : filterNulls [some 0, none, some 1100] = [0, 1100] := by
    simp [filterNulls]
  have hap : alignedPairs [some 10, some 30, some 20] [some 0, none, some 1100]
      = [(10, 0), (20, 1100)] := by
    simp [alignedPairs, List.filterMap_cons]
  have h1 : (preprocessSamples [⟨1, 1, "10,30,20"⟩, ⟨1, 10, "0,,1100"⟩]).pace
      = some ⟨[⟨1, 3, 20⟩]⟩ := by
    rw [preprocessSamples_pace_pair, parseSampleData_102030, parseSampleData_dist_gap,
      hfs, hfd]
    norm_num [processSpeedSplits, splitStep, overallSplit, round2, round_eq,
      List.range_succ, List.take, List.drop]
  have h2 : alignedPaceSpec (parseSampleData "10,30,20") 1 (parseSampleData "0,,1100")
      = some ⟨[⟨1, 4, 15⟩]⟩ := by
    rw [alignedPaceSpec, parseSampleData_102030, parseSampleData_dist_gap, hap]
    norm_num [processSpeedSplits, splitStep, overallSplit, round2, round_eq,
      List.range_succ, List.take, List.drop]
  refine ⟨h1, h2, ?_⟩
  rw [h1, h2]
  intro hcon
  injection hcon with hcon
  rw [PaceResult.mk.injEq, List.cons.injEq, SpeedSplit.mk.injEq] at hcon
  norm_num at hcon

/-- Claim C2, amended. The pipeline filters each channel independently; when
the speed and distance channels have absent entries at exactly the same
positions (equal presence masks), independent filtering coincides with the
spec's simultaneous positional rule, and both for the bare summarizer and
through the full two-channel pipeline the result equals the aligned-filter
result — so each split's speed average then covers the same original sample
positions as the distance range that defined it. -/
theorem C2_alignment_amended :
    (∀ (speed dist : List (Option ℚ)) (rate : ℚ),
      speed.map Option.isSome = dist.map Option.isSome →
      processSpeedSplits (filterNulls speed) rate (some (filterNulls dist))
        = alignedPaceSpec speed rate dist)
    ∧ (∀ (d1 d2 : String) (r1 r2 : ℚ),
        (parseSampleData d1).map Option.isSome = (parseSampleData d2).map Option.isSome →
        (preprocessSamples [⟨r1, 1, d1⟩, ⟨r2, 10, d2⟩]).pace
          = alignedPaceSpec (parseSampleData d1) r1 (parseSampleData d2)) := by
  have main : ∀ (speed dist : List (Option ℚ)) (rate : ℚ),
      speed.map Option.isSome = dist.map Option.isSome →
      processSpeedSplits (filterNulls speed) rate (some (filterNulls dist))
        = alignedPaceSpec speed rate dist := by
    intro speed dist rate hmask
    have hpair := filterNulls_eq_aligned speed dist hmask
    rw [alignedPaceSpec, ← hpair.1, ← hpair.2]
  refine ⟨main, ?_⟩
  intro d1 d2 r1 r2 hmask
  rw [preprocessSamples_pace_pair]
  exact main _ _ _ hmask

/-- Witness for C2 (amended): channels `"10,,20"` and `"0,,1000"` have equal
presence masks, so the pipeline's pace equals the aligned-filter pace. -/
theorem C2_alignment_amended_witness :
    (preprocessSamples [⟨1, 1, "10,,20"⟩, ⟨1, 10, "0,,1000"⟩]).pace
      = alignedPaceSpec (parseSampleData "10,,20") 1 (parseSampleData "0,,1000") :=
  C2_alignment_amended.2 "10,,20" "0,,1000" 1 1 (by decide)

/-! ## C3: power and normalized power -/

theorem round2R_ratCast (q : ℚ) : round2R (q : ℝ) = ((round2 q : ℚ) : ℝ) := by
  unfold round2R round2
  rw [show ((q : ℝ) * 100) = (((q * 100 : ℚ)) : ℝ) by push_cast; ring, Rat.round_cast]
  push_cast
  ring

theorem rolling_inv (values : List ℚ) (w : ℕ) (hw : 1 ≤ w) :
    ∀ m, m ≤ values.length →
    (List.range m).foldl (rollingStep values w) (0, [])
      = ((values.take m).sum - (values.take (m - w)).sum,
         (List.range (m + 1 - w)).map (fun j => ((values.drop j).take w).sum / (w : ℚ))) := by
  intro m
  induction m with
  | zero =>
    intro _
    have h0 : 1 - w = 0 := by omega
    simp [h0]
  | succ k ih =>
    intro hk1
    have hklt : k < values.length := hk1
    have hk : k ≤ values.length := le_of_lt hklt
    rw [List.range_succ, List.foldl_append, ih hk, List.foldl_cons, List.foldl_nil]
    have hgk : values.getD k 0 = values[k] := by
      rw [List.getD_eq_getElem?_getD, List.getElem?_eq_getElem hklt]
      rfl
    have htakek1 : (values.take (k + 1)).sum = (values.take k).sum + values[k] :=
      List.sum_take_succ values k hklt
    have hS : (if w ≤ k
          then (values.take k).sum - (values.take (k - w)).sum + values.getD k 0
            - values.getD (k - w) 0
          else (values.take k).sum - (values.take (k - w)).sum + values.getD k 0)
        = (values.take (k + 1)).sum - (values.take (k + 1 - w)).sum := by
      by_cases hkw : w ≤ k
      · have hkw_lt : k - w < values.length := by omega
        have hgkw : values.getD (k - w) 0 = values[k - w] := by
          rw [List.getD_eq_getElem?_getD, List.getElem?_eq_getElem hkw_lt]
          rfl
        have htakekw : (values.take (k - w + 1)).sum
            = (values.take (k - w)).sum + values[k - w] :=
          List.sum_take_succ values (k - w) hkw_lt
        rw [if_pos hkw, hgk, hgkw, show k + 1 - w = k - w + 1 from by omega, htakek1,
          htakekw]
        ring
      · rw [if_neg hkw, hgk, show k + 1 - w = 0 from by omega,
          show k - w = 0 from by omega, htakek1]
        simp
    show rollingStep values w _ k = _
    simp only [rollingStep]
    rw [hS]
    by_cases hkw1 : w ≤ k + 1
    · rw [if_pos hkw1, show k + 1 + 1 - w = (k + 1 - w) + 1 from by omega,
        List.range_succ, List.map_append, List.map_cons, List.map_nil]
      have hsplit : (values.take (k + 1)).sum
          = (values.take (k + 1 - w)).sum + ((values.drop (k + 1 - w)).take w).sum := by
        conv_lhs => rw [show k + 1 = (k + 1 - w) + w from by omega]
        rw [List.take_add]
        simp
      rw [Prod.mk.injEq]
      refine ⟨rfl, ?_⟩
      congr 1
      rw [hsplit]
      congr 1
      ring
    · rw [if_neg hkw1, show k + 1 + 1 - w = 0 from by omega,
        show k + 1 - w = 0 from by omega]

theorem rollingAvgsOf_windows (values : List ℚ) (w : ℕ) (hw : 1 ≤ w)
    (hlen : w ≤ values.length) :
    rollingAvgsOf values w
      = (List.range (values.length - w + 1)).map
          (fun j => ((values.drop j).take w).sum / (w : ℚ)) := by
  unfold rollingAvgsOf
  rw [rolling_inv values w hw values.length le_rfl,
    show values.length + 1 - w = values.length - w + 1 from by omega]

/-- Modelled from the spec: the list of rolling means — one mean per
contiguous window of `w` consecutive samples. -/
def npWindows (values : List ℚ) (w : ℕ) : List ℚ :=
  (List.range (values.length - w + 1)).map (fun j => ((values.drop j).take w).sum / (w : ℚ))

/-- Modelled from the spec: normalized power — rolling means of window size
`⌈30 / rate⌉` raised to the 4th power, averaged, then 4th-rooted (`√√·`),
falling back to the plain average for a series shorter than the window. -/
noncomputable def normalizedPowerSpec (values : List ℚ) (rate : ℚ) : ℝ :=
  let w : ℤ := ⌈(30 : ℚ) / rate⌉
  if (values.length : ℤ) < w then ((values.sum / values.length : ℚ) : ℝ)
  else
    let rolls := npWindows values w.toNat
    Real.sqrt (Real.sqrt (((rolls.map (fun v => v ^ 4)).sum / (rolls.length : ℚ) : ℚ) : ℝ))

theorem round2R_zero : round2R 0 = 0 := by
  simp [round2R]

theorem round2R_rat_val (q r : ℚ) (h : round2 q = r) : round2R (q : ℝ) = (r : ℝ) := by
  rw [round2R_ratCast, h]

/-- Claim C3, counterexample. The claim's "variability index =
normalized / average (0 when average is 0)" fails on a series with negative
average: for the one-sample series `[-100]` at 1-second rate the code returns
variability index 0, while normalized / average is `(-100) / (-100) = 1 ≠ 0`
(the code tests `avgPower > 0`, not `avgPower ≠ 0`). -/
theorem C3_counterexample :
    processPower [-100] 1 = some ⟨-100, -100, -100, 0⟩
    ∧ ((-100 : ℝ) / (-100 : ℝ) = 1) ∧ ((0 : ℝ) ≠ 1) := by
  refine ⟨?_, by norm_num, by norm_num⟩
  have hceil : (⌈(30 : ℚ) / 1⌉ : ℤ) = 30 := by norm_num
  simp only [processPower, hceil]
  rw [if_neg (by simp)]
  have hsum : ([(-100 : ℚ)]).sum = -100 := by simp
  have hlen : ([(-100 : ℚ)]).length = 1 := by simp
  rw [hsum, hlen]
  have havg : ((-100 : ℚ)) / ((1 : ℕ) : ℚ) = -100 := by norm_num
  rw [havg, if_pos (by norm_num : ((1 : ℕ) : ℤ) < 30),
    if_neg (by norm_num : ¬((-100 : ℚ) > 0))]
  have hmax : jsMax [-100] = -100 := by simp [jsMax]
  rw [hmax, round2R_rat_val (-100) (-100) (by norm_num [round2, round_eq]), round2R_zero]
  norm_num

/-- Claim C3, amended. For every non-empty power series at a positive recording
rate: average power is the (rounded) mean; normalized power follows the
rolling-window spec `normalizedPowerSpec` — window size `⌈30 / rate⌉`,
windows raised to the 4th power, averaged, 4th-rooted, with fallback to the
plain average for short series; the variability index is
normalized / average when the average is positive and 0 otherwise (in
particular 0 when the average is 0); and the constant series of 30 samples
of 200 at 1-second rate yields average 200, normalized power 200 and
variability index 1. -/
theorem C3_power_amended :
    (∀ (values : List ℚ) (rate : ℚ), 0 < rate → values ≠ [] →
      processPower values rate
        = some ⟨round2R ((values.sum / values.length : ℚ) : ℝ),
                round2R (normalizedPowerSpec values rate),
                round2R ((jsMax values : ℚ) : ℝ),
                round2R (if 0 < (values.sum / values.length : ℚ)
                  then normalizedPowerSpec values rate
                    / ((values.sum / values.length : ℚ) : ℝ)
                  else 0)⟩)
    ∧ processPower (List.replicate 30 200) 1 = some ⟨200, 200, 200, 1⟩ := by
  have main : ∀ (values : List ℚ) (rate : ℚ), 0 < rate → values ≠ [] →
      processPower values rate
        = some ⟨round2R ((values.sum / values.length : ℚ) : ℝ),
                round2R (normalizedPowerSpec values rate),
                round2R ((jsMax values : ℚ) : ℝ),
                round2R (if 0 < (values.sum / values.length : ℚ)
                  then normalizedPowerSpec values rate
                    / ((values.sum / values.length : ℚ) : ℝ)
                  else 0)⟩ := by
    intro values rate hrate hne
    have hlen0 : ¬(values.length = 0) := fun hc => hne (List.length_eq_zero.mp hc)
    have hnps : normalizedPowerSpec values rate
        = (if (values.length : ℤ) < ⌈(30 : ℚ) / rate⌉
            then ((values.sum / values.length : ℚ) : ℝ)
            else Real.sqrt (Real.sqrt
              ((((rollingAvgsOf values (⌈(30 : ℚ) / rate⌉).toNat).map (fun v => v ^ 4)).sum
                / ((rollingAvgsOf values (⌈(30 : ℚ) / rate⌉).toNat).length : ℚ) : ℚ) : ℝ))) := by
      by_cases hcase : (values.length : ℤ) < ⌈(30 : ℚ) / rate⌉
      · simp [normalizedPowerSpec, hcase]
      · have hwpos : 0 < ⌈(30 : ℚ) / rate⌉ := Int.ceil_pos.mpr (by positivity)
        have hw1 : 1 ≤ (⌈(30 : ℚ) / rate⌉).toNat := by omega
        have hwle : (⌈(30 : ℚ) / rate⌉).toNat ≤ values.length := by omega
        rw [rollingAvgsOf_windows values _ hw1 hwle]
        simp [normalizedPowerSpec, hcase, npWindows]
    simp only [processPower, if_neg hlen0, hnps]
  refine ⟨main, ?_⟩
  rw [main (List.replicate 30 200) 1 (by norm_num) (by simp)]
  have havg : ((List.replicate 30 (200 : ℚ)).sum / (List.replicate 30 (200 : ℚ)).length : ℚ)
      = 200 := by
    rw [List.sum_replicate, List.length_replicate]
    norm_num
  have hceil : (⌈(30 : ℚ) / 1⌉ : ℤ) = 30 := by norm_num
  have hwin : npWindows (List.replicate 30 (200 : ℚ)) ((30 : ℤ)).toNat = [200] := by
    simp only [npWindows, List.length_replicate, Int.toNat_ofNat]
    norm_num [List.range_succ, List.take_replicate, List.sum_replicate]
  have hnp : normalizedPowerSpec (List.replicate 30 200) 1 = ((200 : ℚ) : ℝ) := by
    simp only [normalizedPowerSpec, hceil, List.length_replicate]
    rw [if_neg (by norm_num), hwin]
    have h4 : (([((200 : ℚ))]).map (fun v => v ^ 4)).sum / (([((200 : ℚ))]).length : ℚ)
        = 1600000000 := by norm_num
    rw [h4, show ((1600000000 : ℚ) : ℝ) = (40000 : ℝ) ^ 2 by norm_num,
      Real.sqrt_sq (by norm_num), show (40000 : ℝ) = (200 : ℝ) ^ 2 by norm_num,
      Real.sqrt_sq (by norm_num)]
    norm_num
  have hmax : jsMax (List.replicate 30 (200 : ℚ)) = 200 := by
    have hfold : ∀ n : ℕ, (List.replicate n (200 : ℚ)).foldl max 200 = 200 := by
      intro n
      induction n with
      | zero => rfl
      | succ k ih => simp [List.replicate_succ, List.foldl_cons, max_self, ih]
    rw [show List.replicate 30 (200 : ℚ) = 200 :: List.replicate 29 200 from rfl]
    simp only [jsMax, hfold]
  rw [havg, hnp, hmax, if_pos (by norm_num : (0 : ℚ) < 200),
    show (((200 : ℚ) : ℝ) / ((200 : ℚ) : ℝ)) = ((1 : ℚ) : ℝ) by norm_num]
  simp only [round2R_ratCast]
  norm_num [round2, round_eq, PowerStats.mk.injEq]

/-- Witness for C3 (amended): the general clause applied to the constant
30-sample series at rate 1. -/
theorem C3_power_amended_witness :
    processPower (List.replicate 30 200) 1
      = some ⟨round2R (((List.replicate 30 (200 : ℚ)).sum
            / (List.replicate 30 (200 : ℚ)).length : ℚ) : ℝ),
          round2R (normalizedPowerSpec (List.replicate 30 200) 1),
          round2R ((jsMax (List.replicate 30 200) : ℚ) : ℝ),
          round2R (if 0 < ((List.replicate 30 (200 : ℚ)).sum
              / (List.replicate 30 (200 : ℚ)).length : ℚ)
            then normalizedPowerSpec (List.replicate 30 200) 1
              / (((List.replicate 30 (200 : ℚ)).sum
                / (List.replicate 30 (200 : ℚ)).length : ℚ) : ℝ)
            else 0)⟩ :=
  C3_power_amended.1 (List.replicate 30 200) 1 (by norm_num) (by simp)

/-! ## C4: HRV statistics -/

/-- Modelled from the spec: the arithmetic mean. -/
def meanSpec (l : List ℚ) : ℚ := l.sum / l.length

/-- Modelled from the spec: the first differences of a series. -/
def diffsSpec (l : List ℚ) : List ℚ := (l.zip l.tail).map (fun p => p.2 - p.1)

/-- Modelled from the spec: the population standard deviation around the
mean. -/
noncomputable def sdnnSpec (l : List ℚ) : ℝ :=
  Real.sqrt (((l.map (fun v => (v - meanSpec l) ^ 2)).sum / (l.length : ℚ) : ℚ) : ℝ)

/-- Modelled from the spec: the root mean square of the first differences. -/
noncomputable def rmssdSpec (l : List ℚ) : ℝ :=
  Real.sqrt ((((diffsSpec l).map (fun d => d ^ 2)).sum / ((l.length : ℚ) - 1) : ℚ) : ℝ)

/-- Modelled from the spec: the percentage of first differences whose
absolute value strictly exceeds 50. -/
def pnn50Spec (l : List ℚ) : ℚ :=
  ((((diffsSpec l).filter (fun d => decide (|d| > 50))).length : ℚ) / ((l.length : ℚ) - 1))
    * 100

theorem round_sqrt_eval (q : ℚ) (z : ℤ) (hz : (0 : ℝ) < (z : ℝ) - 1 / 2)
    (h1 : (((z : ℚ) - 1 / 2) ^ 2) ≤ q * 10000)
    (h2 : q * 10000 < ((z : ℚ) + 1 / 2) ^ 2) :
    round2R (Real.sqrt ((q : ℚ) : ℝ)) = (z : ℝ) / 100 := by
  have hq0' : (0 : ℚ) ≤ q := by nlinarith [sq_nonneg ((z : ℚ) - 1 / 2)]
  have hq0 : (0 : ℝ) ≤ ((q : ℚ) : ℝ) := by exact_mod_cast hq0'
  have hmul : Real.sqrt ((q : ℚ) : ℝ) * 100 = Real.sqrt ((q : ℝ) * 10000) := by
    rw [show ((q : ℝ) * 10000) = ((q : ℚ) : ℝ) * (100 * 100) by push_cast; ring,
      show (100 : ℝ) * 100 = 100 ^ 2 by ring, Real.sqrt_mul hq0, Real.sqrt_sq (by norm_num)]
  have h1R : ((((z : ℚ) - 1 / 2) ^ 2 : ℚ) : ℝ) ≤ ((q * 10000 : ℚ) : ℝ) :=
    Rat.cast_le.mpr h1
  have h2R : ((q * 10000 : ℚ) : ℝ) < (((z : ℚ) + 1 / 2) ^ 2 : ℚ) :=
    Rat.cast_lt.mpr h2
  push_cast at h1R h2R
  have hlo : (z : ℝ) - 1 / 2 ≤ Real.sqrt ((q : ℝ) * 10000) :=
    (Real.le_sqrt (le_of_lt hz) (by nlinarith)).mpr h1R
  have hhi : Real.sqrt ((q : ℝ) * 10000) < (z : ℝ) + 1 / 2 :=
    (Real.sqrt_lt' (by linarith)).mpr h2R
  have hround : round (Real.sqrt ((q : ℚ) : ℝ) * 100) = z := by
    rw [hmul, round_eq, Int.floor_eq_iff]
    constructor
    · linarith
    · push_cast
      linarith
  rw [round2R, hround]

theorem rmssd_eval : round2R (Real.sqrt (((425 / 3 : ℚ)) : ℝ)) = (11.9 : ℝ) := by
  rw [round_sqrt_eval (425 / 3) 1190 (by norm_num) (by norm_num) (by norm_num)]
  norm_num

theorem sdnn_eval : round2R (Real.sqrt (((125 / 4 : ℚ)) : ℝ)) = (5.59 : ℝ) := by
  rw [round_sqrt_eval (125 / 4) 559 (by norm_num) (by norm_num) (by norm_num)]
  norm_num

/-- Claim C4. The HRV summarizer returns absent below 2 points; for 2 or more
it returns the rounded arithmetic mean, population standard deviation,
root-mean-square of first differences, and the percentage of first
differences exceeding 50 ms in absolute value; on `[800, 810, 795, 805]` it
returns `mean_rr = 802.5`, `sdnn = 5.59`, `rmssd = 11.90`, `pnn50 = 0`. -/
theorem C4_hrv_stats :
    (∀ values : List ℚ, values.length < 2 → processRrIntervals values = none)
    ∧ (∀ values : List ℚ, 2 ≤ values.length →
        processRrIntervals values
          = some ⟨round2R (rmssdSpec values), round2R (sdnnSpec values),
              round2R ((meanSpec values : ℚ) : ℝ), round2R ((pnn50Spec values : ℚ) : ℝ)⟩)
    ∧ processRrIntervals [800, 810, 795, 805] = some ⟨11.9, 5.59, 802.5, 0⟩ := by
  refine ⟨?_, ?_, ?_⟩
  · intro values hlt
    simp only [processRrIntervals, if_pos hlt]
  · intro values h2
    simp only [processRrIntervals, rmssdSpec, sdnnSpec, meanSpec, pnn50Spec, diffsSpec]
    rw [if_neg (by omega)]
  · simp only [processRrIntervals]
    rw [if_neg (by norm_num)]
    have hmean : (([800, 810, 795, 805] : List ℚ)).sum
        / ((([800, 810, 795, 805] : List ℚ)).length : ℚ) = 1605 / 2 := by norm_num
    norm_num [hmean]
    refine ⟨?_, ?_, ?_, round2R_zero⟩
    · rw [show (Real.sqrt 425 / Real.sqrt 3 : ℝ) = Real.sqrt (((425 / 3 : ℚ) : ℝ)) by
        rw [← Real.sqrt_div (by norm_num : (0 : ℝ) ≤ 425)]
        norm_num]
      rw [rmssd_eval]
      norm_num
    · rw [show (Real.sqrt 125 / Real.sqrt 4 : ℝ) = Real.sqrt (((125 / 4 : ℚ) : ℝ)) by
        rw [← Real.sqrt_div (by norm_num : (0 : ℝ) ≤ 125)]
        norm_num]
      rw [sdnn_eval]
      norm_num
    · rw [show ((1605 : ℝ) / 2) = ((1605 / 2 : ℚ) : ℝ) by norm_num, round2R_ratCast]
      norm_num [round2, round_eq]

/-- Witness for C4: the below-2 clause and the general clause, each applied
at a concrete series. -/
theorem C4_hrv_stats_witness :
    processRrIntervals [800] = none
    ∧ processRrIntervals [800, 810, 795, 805]
      = some ⟨round2R (rmssdSpec [800, 810, 795, 805]),
          round2R (sdnnSpec [800, 810, 795, 805]),
          round2R ((meanSpec [800, 810, 795, 805] : ℚ) : ℝ),
          round2R ((pnn50Spec [800, 810, 795, 805] : ℚ) : ℝ)⟩ :=
  ⟨C4_hrv_stats.1 [800] (by norm_num),
   C4_hrv_stats.2.1 [800, 810, 795, 805] (by norm_num)⟩

/-! ## C6: half-hour heart-rate buckets -/

/-- Well-formedness of a `"HH:MM"` sample time: both parts parse and lie in
range. -/
def validTime (t : String) : Bool :=
  match jsParseInt ((jsSplit ':' t).getD 0 ""), jsParseInt ((jsSplit ':' t).getD 1 "") with
  | some h, some m => decide (0 ≤ h) && decide (h < 24) && decide (0 ≤ m) && decide (m < 60)
  | _, _ => false

/-- The running minimum of a list (`none` on the empty list). -/
def foldMin (l : List ℚ) : Option ℚ := l.foldl optMinUpd none

/-- The running maximum of a list (`none` on the empty list). -/
def foldMax (l : List ℚ) : Option ℚ := l.foldl optMaxUpd none

/-- The heart rates landing in bucket `i`. -/
def bucketHrs (ss : List HeartRateSample) (i : ℤ) : List ℚ :=
  (ss.filter (fun s => bucketIndexOf s.sample_time == i)).map (fun s => s.heart_rate)

/-- The per-bucket emission rule: nothing for an empty bucket, otherwise the
end-of-window label, rounded sum-derived average, running min/max and the
sample count. -/
def emitSpec (ss : List HeartRateSample) (i : ℕ) : Option HalfHourBucket :=
  let hrs := bucketHrs ss (i : ℤ)
  if hrs.length = 0 then none
  else some ⟨windowLabel i, round (hrs.sum / (hrs.length : ℚ)),
    (foldMin hrs).getD 0, (foldMax hrs).getD 0, hrs.length⟩

theorem optMinUpd_fold_char : ∀ (l : List ℚ) (o : Option ℚ) (m : ℚ),
    l.foldl optMinUpd o = some m →
    (∀ x ∈ l, m ≤ x) ∧ (∀ c, o = some c → m ≤ c) ∧ (m ∈ l ∨ o = some m)
  | [], o, m, h => by
    refine ⟨by simp, ?_, Or.inr (by simpa using h)⟩
    intro c hc
    simp only [List.foldl_nil] at h
    rw [hc] at h
    injection h with h
    rw [h]
  | x :: xs, o, m, h => by
    rw [List.foldl_cons] at h
    obtain ⟨hbound, hupd, hmem⟩ := optMinUpd_fold_char xs (optMinUpd o x) m h
    have hx : m ≤ x := by
      cases o with
      | none => exact hupd x rfl
      | some c =>
        simp only [optMinUpd] at hupd
        by_cases hlt : x < c
        · exact hupd x (by rw [if_pos hlt])
        · have := hupd c (by rw [if_neg hlt])
          linarith [not_lt.mp hlt]
    refine ⟨?_, ?_, ?_⟩
    · intro y hy
      rcases List.mem_cons.mp hy with rfl | hy2
      · exact hx
      · exact hbound y hy2
    · intro c hc
      subst hc
      simp only [optMinUpd] at hupd
      by_cases hlt : x < c
      · have := hupd x (by rw [if_pos hlt])
        linarith
      · exact hupd c (by rw [if_neg hlt])
    · rcases hmem with hm | hm
      · exact Or.inl (List.mem_cons_of_mem x hm)
      · cases o with
        | none =>
          simp only [optMinUpd] at hm
          injection hm with hm
          exact Or.inl (by rw [← hm]; exact List.mem_cons_self x xs)
        | some c =>
          simp only [optMinUpd] at hm
          by_cases hlt : x < c
          · rw [if_pos hlt] at hm
            injection hm with hm
            exact Or.inl (by rw [← hm]; exact List.mem_cons_self x xs)
          · rw [if_neg hlt] at hm
            exact Or.inr hm

theorem optMaxUpd_fold_char : ∀ (l : List ℚ) (o : Option ℚ) (m : ℚ),
    l.foldl optMaxUpd o = some m →
    (∀ x ∈ l, x ≤ m) ∧ (∀ c, o = some c → c ≤ m) ∧ (m ∈ l ∨ o = some m)
  | [], o, m, h => by
    refine ⟨by simp, ?_, Or.inr (by simpa using h)⟩
    intro c hc
    simp only [List.foldl_nil] at h
    rw [hc] at h
    injection h with h
    rw [h]
  | x :: xs, o, m, h => by
    rw [List.foldl_cons] at h
    obtain ⟨hbound, hupd, hmem⟩ := optMaxUpd_fold_char xs (optMaxUpd o x) m h
    have hx : x ≤ m := by
      cases o with
      | none => exact hupd x rfl
      | some c =>
        simp only [optMaxUpd] at hupd
        by_cases hlt : x > c
        · exact hupd x (by rw [if_pos hlt])
        · have := hupd c (by rw [if_neg hlt])
          have := not_lt.mp hlt
          linarith
    refine ⟨?_, ?_, ?_⟩
    · intro y hy
      rcases List.mem_cons.mp hy with rfl | hy2
      · exact hx
      · exact hbound y hy2
    · intro c hc
      subst hc
      simp only [optMaxUpd] at hupd
      by_cases hlt : x > c
      · have := hupd x (by rw [if_pos hlt])
        linarith
      · exact hupd c (by rw [if_neg hlt])
    · rcases hmem with hm | hm
      · exact Or.inl (List.mem_cons_of_mem x hm)
      · cases o with
        | none =>
          simp only [optMaxUpd] at hm
          injection hm with hm
          exact Or.inl (by rw [← hm]; exact List.mem_cons_self x xs)
        | some c =>
          simp only [optMaxUpd] at hm
          by_cases hlt : x > c
          · rw [if_pos hlt] at hm
            injection hm with hm
            exact Or.inl (by rw [← hm]; exact List.mem_cons_self x xs)
          · rw [if_neg hlt] at hm
            exact Or.inr hm

theorem bucketFold_char : ∀ (ss : List HeartRateSample) (acc : BucketAcc) (i : ℤ),
    (ss.foldl bucketStep acc).sums i = acc.sums i + (bucketHrs ss i).sum
    ∧ (ss.foldl bucketStep acc).counts i = acc.counts i + (bucketHrs ss i).length
    ∧ (ss.foldl bucketStep acc).mins i = (bucketHrs ss i).foldl optMinUpd (acc.mins i)
    ∧ (ss.foldl bucketStep acc).maxs i = (bucketHrs ss i).foldl optMaxUpd (acc.maxs i)
  | [], acc, i => by simp [bucketHrs]
  | s :: rest, acc, i => by
    have ih := bucketFold_char rest (bucketStep acc s) i
    by_cases hsi : bucketIndexOf s.sample_time = i
    · have hfil : bucketHrs (s :: rest) i = s.heart_rate :: bucketHrs rest i := by
        simp [bucketHrs, List.filter_cons, hsi]
      have hstep : (bucketStep acc s).sums i = acc.sums i + s.heart_rate
          ∧ (bucketStep acc s).counts i = acc.counts i + 1
          ∧ (bucketStep acc s).mins i = optMinUpd (acc.mins i) s.heart_rate
          ∧ (bucketStep acc s).maxs i = optMaxUpd (acc.maxs i) s.heart_rate := by
        simp only [bucketStep, hsi]
        refine ⟨by simp, by simp, by simp, by simp⟩
      rw [List.foldl_cons]
      refine ⟨?_, ?_, ?_, ?_⟩
      · rw [ih.1, hstep.1, hfil, List.sum_cons]
        ring
      · rw [ih.2.1, hstep.2.1, hfil, List.length_cons]
        omega
      · rw [ih.2.2.1, hstep.2.2.1, hfil, List.foldl_cons]
      · rw [ih.2.2.2, hstep.2.2.2, hfil, List.foldl_cons]
    · have hfil : bucketHrs (s :: rest) i = bucketHrs rest i := by
        simp [bucketHrs, List.filter_cons, hsi]
      have hstep : (bucketStep acc s).sums i = acc.sums i
          ∧ (bucketStep acc s).counts i = acc.counts i
          ∧ (bucketStep acc s).mins i = acc.mins i
          ∧ (bucketStep acc s).maxs i = acc.maxs i := by
        have hne : ¬(i = bucketIndexOf s.sample_time) := fun hc => hsi hc.symm
        simp only [bucketStep]
        refine ⟨by rw [if_neg hne], by rw [if_neg hne], by rw [if_neg hne],
          by rw [if_neg hne]⟩
      rw [List.foldl_cons]
      refine ⟨?_, ?_, ?_, ?_⟩
      · rw [ih.1, hstep.1, hfil]
      · rw [ih.2.1, hstep.2.1, hfil]
      · rw [ih.2.2.1, hstep.2.2.1, hfil]
      · rw [ih.2.2.2, hstep.2.2.2, hfil]

theorem filterMap_congr_mem {α β : Type} {f g : α → Option β} :
    ∀ l : List α, (∀ a ∈ l, f a = g a) → l.filterMap f = l.filterMap g
  | [], _ => rfl
  | a :: l, h => by
    have ih := filterMap_congr_mem l (fun b hb => h b (List.mem_cons_of_mem a hb))
    have ha := h a (List.mem_cons_self a l)
    simp only [List.filterMap_cons, ha, ih]

theorem bucketHeartRateSamples_emit (ss : List HeartRateSample) :
    bucketHeartRateSamples ss = (List.range 48).filterMap (emitSpec ss) := by
  unfold bucketHeartRateSamples
  apply filterMap_congr_mem
  intro i _
  have hch := bucketFold_char ss bucketAccInit (i : ℤ)
  have h0 : bucketAccInit.sums (i : ℤ) = 0 := rfl
  have h1 : bucketAccInit.counts (i : ℤ) = 0 := rfl
  have h2 : bucketAccInit.mins (i : ℤ) = none := rfl
  have h3 : bucketAccInit.maxs (i : ℤ) = none := rfl
  rw [hch.1, hch.2.1, hch.2.2.1, hch.2.2.2, h0, h1, h2, h3]
  simp only [emitSpec, foldMin, foldMax, zero_add, Nat.zero_add]

/-- Claim C6. For samples with well-formed `"HH:MM"` times, each sample's
bucket index `hour * 2 + (minute ≥ 30)` lies in `[0, 47]`; the emitted list
consists of exactly the non-empty buckets, in index order, each carrying the
end-of-window label, the rounded sum-derived average, the minimum, maximum
and sample count of its bucket (the running min/max really are least/greatest
elements); bucket 0 is labeled `"00:30"`, and a `"07:45"` sample lands in
bucket 15 labeled `"08:00"`. -/
theorem C6_half_hour_buckets (ss : List HeartRateSample)
    (hvalid : ∀ s ∈ ss, validTime s.sample_time = true) :
    (∀ s ∈ ss, 0 ≤ bucketIndexOf s.sample_time ∧ bucketIndexOf s.sample_time ≤ 47)
    ∧ bucketHeartRateSamples ss = (List.range 48).filterMap (emitSpec ss)
    ∧ (∀ (l : List ℚ) (m : ℚ), foldMin l = some m → m ∈ l ∧ ∀ x ∈ l, m ≤ x)
    ∧ (∀ (l : List ℚ) (m : ℚ), foldMax l = some m → m ∈ l ∧ ∀ x ∈ l, x ≤ m)
    ∧ windowLabel 0 = "00:30"
    ∧ bucketIndexOf "07:45" = 15 ∧ windowLabel 15 = "08:00" := by
  refine ⟨?_, bucketHeartRateSamples_emit ss, ?_, ?_, by decide, by decide, by decide⟩
  · intro s hs
    have hv := hvalid s hs
    unfold validTime at hv
    unfold bucketIndexOf
    rcases hh : jsParseInt ((jsSplit ':' s.sample_time).getD 0 "") with _ | h
    · rw [hh] at hv
      simp at hv
    · rcases hm : jsParseInt ((jsSplit ':' s.sample_time).getD 1 "") with _ | m
      · rw [hh, hm] at hv
        simp at hv
      · rw [hh, hm] at hv
        simp only [Bool.and_eq_true, decide_eq_true_eq] at hv
        simp only [hh, hm, Option.getD_some]
        by_cases hge : m ≥ 30
        · rw [if_pos hge]
          omega
        · rw [if_neg hge]
          omega
  · intro l m h
    obtain ⟨hb, _, hmem⟩ := optMinUpd_fold_char l none m h
    rcases hmem with hm | hm
    · exact ⟨hm, hb⟩
    · exact absurd hm (Option.noConfusion)
  · intro l m h
    obtain ⟨hb, _, hmem⟩ := optMaxUpd_fold_char l none m h
    rcases hmem with hm | hm
    · exact ⟨hm, hb⟩
    · exact absurd hm (Option.noConfusion)

/-- Witness for C6: the claim instantiated on the single sample `"07:45"`,
whose time is well-formed. -/
theorem C6_half_hour_buckets_witness :
    (∀ s ∈ [(⟨"07:45", 80⟩ : HeartRateSample)],
      0 ≤ bucketIndexOf s.sample_time ∧ bucketIndexOf s.sample_time ≤ 47)
    ∧ bucketHeartRateSamples [(⟨"07:45", 80⟩ : HeartRateSample)]
      = (List.range 48).filterMap (emitSpec [(⟨"07:45", 80⟩ : HeartRateSample)]) := by
  have h := C6_half_hour_buckets [(⟨"07:45", 80⟩ : HeartRateSample)]
    (by intro s hs; rcases List.mem_singleton.mp hs with rfl; decide)
  exact ⟨h.1, h.2.1⟩

end Polar
